import Mathlib

/-!
QuietPatch catalog updater (`catalog-updater/main.go`)

A shallow embedding of the single Go source file of the catalog updater: the
`Manifest` type, `must`, `download` and `main`.

* Everything the program does to the outside world (HTTP requests, file
  creation and copying, the `minisign` and `quietpatch` child processes, the two
  output streams) is recorded as a trace of events.  The answers of the outside
  world come from an arbitrary `World`, a state-passing oracle over an arbitrary
  state type, so the answer to a call may depend on everything that happened
  before it.
* `os.Exit` ends a run with its status; a run in which `main` returns has
  status 0.
* `json.Unmarshal` into `Manifest` is modelled on texts (`String`): a scanner for
  JSON, with the nesting limit of `encoding/json`, and the decoding of the
  scanned value into the struct, with the rules of `encoding/json` for key
  matching, `null` and values of the wrong type.
* `filepath.Join` and the case folding of `encoding/json` are parameters
  (`GoLib`): the theorems hold for every choice of them.
-/

namespace QuietPatch

/-! ## Data model -/

/-- Go `error` value: `none` is `nil`, `some msg` is an error whose text is `msg`. -/
abbrev GoError := Option String

/-- The anonymous struct of the `Catalog` field of `Manifest` (main.go:15-21). -/
structure ManifestCatalog where
  Epoch : Int
  SnapshotDate : String
  Latest : String
  SignatureExt : String
  MinClient : String
deriving DecidableEq, Repr

/-- The `Manifest` struct (main.go:14-22). -/
structure Manifest where
  Catalog : ManifestCatalog
deriving DecidableEq, Repr

/-- The two kinds of error that `json.Unmarshal` returns here: the text is not
JSON (`*json.SyntaxError`), or a JSON value does not fit the Go type it is
decoded into (`*json.UnmarshalTypeError`). -/
inductive JsonError
  | malformed
  | mismatch
deriving DecidableEq, Repr

/-- The zero value of `Manifest`, the value of `var m Manifest` (main.go:64). -/
def Manifest.zero : Manifest := ⟨⟨0, "", "", "", ""⟩⟩

/-- The call sites of `main` from which the outside world is reached. -/
inductive Site
  /-- `http.Get(manifestURL)`, main.go:57, and `io.ReadAll`, main.go:61. -/
  | getManifest
  /-- `download(manifestURL, manifestPath)`, main.go:71. -/
  | dlManifest
  /-- `download(manifestURL+".minisig", manifestSigPath)`, main.go:72. -/
  | dlManifestSig
  /-- `minisign -Vm manifestPath`, main.go:75-76. -/
  | verifyManifest
  /-- `download(m.Catalog.Latest, zstPath)`, main.go:85. -/
  | dlArtifact
  /-- `download(m.Catalog.Latest+m.Catalog.SignatureExt, sigPath)`, main.go:86. -/
  | dlArtifactSig
  /-- `minisign -Vm zstPath`, main.go:89-90. -/
  | verifyArtifact
  /-- `quietpatch db apply zstPath sigPath`, main.go:96-98. -/
  | activate
deriving DecidableEq, Repr

/-- An `*http.Response` as far as the program looks at it: it only ever touches
`resp.Body`.  `status` is the HTTP status code, which the program never reads;
`body` identifies the body stream towards the outside world. -/
structure Response where
  status : Nat
  body : Nat
deriving DecidableEq, Repr

/-- One observable action of the run, with the answer the outside world gave. -/
inductive Event
  /-- `os.MkdirAll(path, perm)` and the error it returned. -/
  | mkdirAll (path : String) (perm : Nat) (err : GoError)
  /-- `http.Get(url)` and what it returned. -/
  | httpGet (site : Site) (url : String) (resp : Response) (err : GoError)
  /-- `io.ReadAll(resp.Body)`: the bytes read and the error. -/
  | readAll (site : Site) (body : Nat) (data : String) (err : GoError)
  /-- `os.Create(path)` and the error it returned. -/
  | create (site : Site) (path : String) (err : GoError)
  /-- `io.Copy(file, resp.Body)`: the bytes that reached the file and the error. -/
  | copy (site : Site) (path : String) (body : Nat) (data : String) (err : GoError)
  /-- A deferred `file.Close()`. -/
  | closeFile (site : Site) (path : String)
  /-- A deferred `resp.Body.Close()`. -/
  | closeBody (site : Site) (body : Nat)
  /-- `json.Unmarshal(data, &m)`: the input, the value of `m` afterwards and the
  returned error. -/
  | unmarshal (data : String) (m : Manifest) (err : Option JsonError)
  /-- `cmd.Run()` of `exec.Command(argv...)`; `env` is `cmd.Env` (`none` when the
  program leaves it unset) and `err` the error returned by `Run`. -/
  | run (site : Site) (argv : List String) (env : Option (List String)) (err : GoError)
  /-- Text written to standard output. -/
  | stdout (text : String)
  /-- Text written to standard error. -/
  | stderr (text : String)
deriving DecidableEq, Repr

/-- The outside world: every operation gets the arguments of the call and the
current world state, and returns its answer and the next state.  No assumption is
made on the answers.  `httpGet` answers with a response and an error; the
program looks at the response only when the error is `nil`.  `readAll` and
`copy` answer with the bytes that were read, or that reached the file, and an
error. -/
structure World (σ : Type) where
  mkdirAll : String → Nat → σ → GoError × σ
  httpGet : String → σ → (Response × GoError) × σ
  readAll : Nat → σ → (String × GoError) × σ
  create : String → σ → GoError × σ
  copy : String → Nat → σ → (String × GoError) × σ
  closeFile : String → σ → σ
  closeBody : Nat → σ → σ
  run : List String → Option (List String) → σ → GoError × σ

/-- What the program reads from its process environment. -/
structure Env where
  /-- The directory returned by `os.UserHomeDir()`.  The source hands the call
  straight to `filepath.Join` (main.go:47) and has no use for the error that
  comes with the directory. -/
  home : String
  /-- The function `os.Getenv`. -/
  getenv : String → String
  /-- The list returned by `os.Environ()`. -/
  environ : List String

/-- The pure functions of the Go standard library that the program calls and
whose code is not part of the repository. -/
structure GoLib where
  /-- The function `filepath.Join` on two elements. -/
  join : String → String → String
  /-- The key folding of `encoding/json`: two object keys match
  case-insensitively when their folded forms are equal. -/
  foldName : String → String

/-! ## The trace monad -/

/-- Outcome of running a piece of the program: it returned `a`, or it called
`os.Exit(code)`; either way with the final world state and the events emitted. -/
inductive Res (σ α : Type)
  | ret (a : α) (s : σ) (evs : List Event)
  | exit (code : Nat) (s : σ) (evs : List Event)

/-- A piece of program: a function of the world state. -/
def Prog (σ α : Type) : Type := σ → Res σ α

/-- The outcome with `evs` put in front of its events. -/
def Res.prepend {σ α : Type} (evs : List Event) : Res σ α → Res σ α
  | .ret a s e => .ret a s (evs ++ e)
  | .exit c s e => .exit c s (evs ++ e)

/-- Sequencing: the second piece runs only if the first one returned. -/
def Prog.bind {σ α β : Type} (x : Prog σ α) (f : α → Prog σ β) : Prog σ β := fun s =>
  match x s with
  | .ret a s1 e1 => (f a s1).prepend e1
  | .exit c s1 e1 => .exit c s1 e1

/-- Returning a value without any action. -/
def Prog.pure {σ α : Type} (a : α) : Prog σ α := fun s => .ret a s []

instance (σ : Type) : Monad (Prog σ) where
  pure := Prog.pure
  bind := Prog.bind

/-- The events of an outcome. -/
def Res.trace {σ α : Type} : Res σ α → List Event
  | .ret _ _ evs => evs
  | .exit _ _ evs => evs

/-- The exit status of the process for an outcome of `main`: the argument of
`os.Exit`, or `0` when `main` returns. -/
def Res.exitCode {σ α : Type} : Res σ α → Nat
  | .ret _ _ _ => 0
  | .exit c _ _ => c

/-- `os.Exit(code)`. -/
def osExit {σ α : Type} (code : Nat) : Prog σ α := fun s => .exit code s []

/-- `fmt.Printf` with the already formatted text. -/
def printf {σ : Type} (text : String) : Prog σ Unit := fun s => .ret () s [.stdout text]

/-- `fmt.Fprintf(os.Stderr, ...)` with the already formatted text. -/
def eprintf {σ : Type} (text : String) : Prog σ Unit := fun s => .ret () s [.stderr text]

/-- `os.MkdirAll`. -/
def osMkdirAll {σ : Type} (w : World σ) (path : String) (perm : Nat) : Prog σ GoError :=
  fun s => let r := w.mkdirAll path perm s; .ret r.1 r.2 [.mkdirAll path perm r.1]

/-- `http.Get`. -/
def httpGet {σ : Type} (w : World σ) (site : Site) (url : String) :
    Prog σ (Response × GoError) :=
  fun s => let r := w.httpGet url s; .ret r.1 r.2 [.httpGet site url r.1.1 r.1.2]

/-- `io.ReadAll(resp.Body)`. -/
def ioReadAll {σ : Type} (w : World σ) (site : Site) (resp : Response) :
    Prog σ (String × GoError) :=
  fun s => let r := w.readAll resp.body s; .ret r.1 r.2 [.readAll site resp.body r.1.1 r.1.2]

/-- `os.Create`. -/
def osCreate {σ : Type} (w : World σ) (site : Site) (path : String) : Prog σ GoError :=
  fun s => let r := w.create path s; .ret r.1 r.2 [.create site path r.1]

/-- `io.Copy(file, resp.Body)`. -/
def ioCopy {σ : Type} (w : World σ) (site : Site) (path : String) (resp : Response) :
    Prog σ GoError :=
  fun s => let r := w.copy path resp.body s
    .ret r.1.2 r.2 [.copy site path resp.body r.1.1 r.1.2]

/-- A deferred `file.Close()`. -/
def closeFile {σ : Type} (w : World σ) (site : Site) (path : String) : Prog σ Unit :=
  fun s => .ret () (w.closeFile path s) [.closeFile site path]

/-- A deferred `resp.Body.Close()`. -/
def closeBody {σ : Type} (w : World σ) (site : Site) (resp : Response) : Prog σ Unit :=
  fun s => .ret () (w.closeBody resp.body s) [.closeBody site resp.body]

/-- `cmd.Run()` for `cmd := exec.Command(argv...)` with `cmd.Env = env`. -/
def cmdRun {σ : Type} (w : World σ) (site : Site) (argv : List String)
    (env : Option (List String)) : Prog σ GoError :=
  fun s => let r := w.run argv env s; .ret r.1 r.2 [.run site argv env r.1]

/-! ## Decoding the manifest (`json.Unmarshal` into `Manifest`) -/

/-- A JSON value as the scanner delivers it.  A number keeps its literal, an
object the order and the repetitions of its members. -/
inductive JSON
  | null
  | bool (b : Bool)
  | num (lit : String)
  | str (s : String)
  | arr (elems : List JSON)
  | obj (members : List (String × JSON))
deriving Repr

/-- The white space of JSON: space, tab, carriage return, line feed. -/
def isSpace (c : Char) : Bool := c == ' ' || c == '\t' || c == '\r' || c == '\n'

/-- The text without the white space at its start. -/
def skipSpace : List Char → List Char
  | [] => []
  | c :: cs => if isSpace c then skipSpace cs else c :: cs

/-- The character is one of `0` to `9`. -/
def isDigit (c : Char) : Bool := '0'.toNat ≤ c.toNat && c.toNat ≤ '9'.toNat

/-- The value of a hexadecimal digit. -/
def hexVal (c : Char) : Option Nat :=
  if isDigit c then some (c.toNat - '0'.toNat)
  else if 'a'.toNat ≤ c.toNat && c.toNat ≤ 'f'.toNat then some (c.toNat - 'a'.toNat + 10)
  else if 'A'.toNat ≤ c.toNat && c.toNat ≤ 'F'.toNat then some (c.toNat - 'A'.toNat + 10)
  else none

/-- The value of the four hexadecimal digits of a `\\u` escape. -/
def hex4 (a b c d : Char) : Option Nat :=
  match hexVal a, hexVal b, hexVal c, hexVal d with
  | some x, some y, some z, some w => some (((x * 16 + y) * 16 + z) * 16 + w)
  | _, _, _, _ => none

/-- The character that a backslash followed by `c` stands for, for the escapes
other than `\\u`. -/
def simpleEscape (c : Char) : Option Char :=
  if c == '\x22' then some '\x22'
  else if c == '\x5c' then some '\x5c'
  else if c == '/' then some '/'
  else if c == 'b' then some (Char.ofNat 8)
  else if c == 'f' then some (Char.ofNat 12)
  else if c == 'n' then some '\n'
  else if c == 'r' then some '\r'
  else if c == 't' then some '\t'
  else none

/-- The scanner for strings, started behind the opening quote: the code units
of the string, escapes resolved, and the text behind the closing quote.  A
control character inside the string or an unknown escape is an error. -/
def scanString : List Char → Option (List Nat × List Char)
  | [] => none
  | c :: rest =>
    if c == '\x22' then some ([], rest)
    else if c == '\x5c' then
      match rest with
      | [] => none
      | e :: rest1 =>
        if e == 'u' then
          match rest1 with
          | a :: b :: c1 :: d :: rest2 =>
            match hex4 a b c1 d with
            | none => none
            | some u =>
              match scanString rest2 with
              | none => none
              | some (us, out) => some (u :: us, out)
          | _ => none
        else
          match simpleEscape e with
          | none => none
          | some x =>
            match scanString rest1 with
            | none => none
            | some (us, out) => some (x.toNat :: us, out)
    else if c.toNat < 32 then none
    else
      match scanString rest with
      | none => none
      | some (us, out) => some (c.toNat :: us, out)

/-- The code unit is a UTF-16 surrogate. -/
def isSurrogate (u : Nat) : Bool := 0xD800 ≤ u && u < 0xE000

/-- The characters of a sequence of code units: a high surrogate followed by a
low one is one character, any other surrogate becomes U+FFFD.  `pending` is a
surrogate that was read and waits for its partner. -/
def unitsToChars (pending : Option Nat) : List Nat → List Char
  | [] =>
    match pending with
    | some _ => [Char.ofNat 0xFFFD]
    | none => []
  | u :: tl =>
    match pending with
    | some hi =>
      if hi < 0xDC00 && 0xDC00 ≤ u && u < 0xE000 then
        Char.ofNat (0x10000 + (hi - 0xD800) * 0x400 + (u - 0xDC00)) :: unitsToChars none tl
      else if isSurrogate u then Char.ofNat 0xFFFD :: unitsToChars (some u) tl
      else Char.ofNat 0xFFFD :: Char.ofNat u :: unitsToChars none tl
    | none =>
      if isSurrogate u then unitsToChars (some u) tl
      else Char.ofNat u :: unitsToChars none tl

/-- The string of a string literal, started behind the opening quote, and the
text behind it. -/
def quoted (cs : List Char) : Option (String × List Char) :=
  match scanString cs with
  | none => none
  | some (us, out) => some (String.mk (unitsToChars none us), out)

/-- The digits at the start of the text, and the text behind them. -/
def spanDigits : List Char → List Char × List Char
  | [] => ([], [])
  | c :: cs => if isDigit c then ((spanDigits cs).1.cons c, (spanDigits cs).2) else ([], c :: cs)

/-- The integer part of a number: `0`, or a digit other than `0` and more digits. -/
def scanInt (cs : List Char) : Option (List Char × List Char) :=
  match cs with
  | [] => none
  | c :: rest =>
    if c == '0' then some (['0'], rest)
    else if isDigit c then some (c :: (spanDigits rest).1, (spanDigits rest).2)
    else none

/-- The fraction of a number, if there is one: a point and at least one digit. -/
def scanFrac (cs : List Char) : Option (List Char × List Char) :=
  match cs with
  | c :: rest =>
    if c == '.' then
      match spanDigits rest with
      | ([], _) => none
      | (ds, out) => some (c :: ds, out)
    else some ([], cs)
  | [] => some ([], cs)

/-- The exponent of a number, if there is one: `e` or `E`, a sign if any, and at
least one digit. -/
def scanExp (cs : List Char) : Option (List Char × List Char) :=
  match cs with
  | c :: rest =>
    if c == 'e' || c == 'E' then
      match rest with
      | s :: rest1 =>
        if s == '+' || s == '-' then
          match spanDigits rest1 with
          | ([], _) => none
          | (ds, out) => some (c :: s :: ds, out)
        else
          match spanDigits rest with
          | ([], _) => none
          | (ds, out) => some (c :: ds, out)
      | [] => none
    else some ([], cs)
  | [] => some ([], cs)

/-- The literal of the number without sign at the start of the text, with `sign`
put in front, and the text behind it. -/
def scanUnsigned (sign cs : List Char) : Option (String × List Char) :=
  match scanInt cs with
  | none => none
  | some (i, cs2) =>
    match scanFrac cs2 with
    | none => none
    | some (f, cs3) =>
      match scanExp cs3 with
      | none => none
      | some (e, cs4) => some (String.mk (sign ++ i ++ f ++ e), cs4)

/-- The literal of the number at the start of the text, and the text behind it. -/
def scanNumber (cs : List Char) : Option (String × List Char) :=
  match cs with
  | [] => none
  | c :: rest => if c == '-' then scanUnsigned ['-'] rest else scanUnsigned [] cs

/-- The text behind `lit`, when the text starts with `lit`. -/
def dropLit (lit : List Char) (cs : List Char) : Option (List Char) :=
  if cs.take lit.length = lit then some (cs.drop lit.length) else none

/-- The nesting limit of the scanner of `encoding/json` (`maxNestingDepth` in
its scanner.go): a bracket or brace that would open one array or object more
than this at once is the syntax error "exceeded max depth". -/
def maxNestingDepth : Nat := 10000

mutual
/-- The scanner for values; `scanElems` reads the elements of an array behind
the opening bracket, `scanMembers` the members of an object behind the opening
brace.  The first argument is fuel, the second the number of arrays and objects
that are open around the text; opening one more than `maxNestingDepth` is an
error. -/
def scanValue : Nat → Nat → List Char → Option (JSON × List Char)
  | 0, _, _ => none
  | fuel + 1, depth, cs =>
    match cs with
    | [] => none
    | c :: rest =>
      if c == '\x7b' then
        if maxNestingDepth ≤ depth then none
        else
          match skipSpace rest with
          | [] => none
          | d :: rest1 =>
            if d == '\x7d' then some (.obj [], rest1)
            else
              match scanMembers fuel (depth + 1) (d :: rest1) with
              | none => none
              | some (ms, out) => some (.obj ms, out)
      else if c == '[' then
        if maxNestingDepth ≤ depth then none
        else
          match skipSpace rest with
          | [] => none
          | d :: rest1 =>
            if d == ']' then some (.arr [], rest1)
            else
              match scanElems fuel (depth + 1) (d :: rest1) with
              | none => none
              | some (es, out) => some (.arr es, out)
      else if c == '\x22' then
        match quoted rest with
        | none => none
        | some (s, out) => some (.str s, out)
      else if c == 't' then (dropLit "rue".toList rest).map fun out => (.bool true, out)
      else if c == 'f' then (dropLit "alse".toList rest).map fun out => (.bool false, out)
      else if c == 'n' then (dropLit "ull".toList rest).map fun out => (.null, out)
      else (scanNumber cs).map fun r => (.num r.1, r.2)
def scanElems : Nat → Nat → List Char → Option (List JSON × List Char)
  | 0, _, _ => none
  | fuel + 1, depth, cs =>
    match scanValue fuel depth cs with
    | none => none
    | some (v, out) =>
      match skipSpace out with
      | [] => none
      | d :: rest =>
        if d == ']' then some ([v], rest)
        else if d == ',' then
          match scanElems fuel depth (skipSpace rest) with
          | none => none
          | some (vs, out1) => some (v :: vs, out1)
        else none
def scanMembers : Nat → Nat → List Char → Option (List (String × JSON) × List Char)
  | 0, _, _ => none
  | fuel + 1, depth, cs =>
    match cs with
    | [] => none
    | q :: rest =>
      if q == '\x22' then
        match quoted rest with
        | none => none
        | some (k, out) =>
          match skipSpace out with
          | [] => none
          | col :: rest1 =>
            if col == ':' then
              match scanValue fuel depth (skipSpace rest1) with
              | none => none
              | some (v, out1) =>
                match skipSpace out1 with
                | [] => none
                | d :: rest2 =>
                  if d == '\x7d' then some ([(k, v)], rest2)
                  else if d == ',' then
                    match scanMembers fuel depth (skipSpace rest2) with
                    | none => none
                    | some (ms, out2) => some ((k, v) :: ms, out2)
                  else none
            else none
      else none
end

/-- The value of a JSON text, as the scanner of `encoding/json` accepts it: one
value with nothing but white space around it, nested no deeper than
`maxNestingDepth`.  The scanner gets the length of the text plus one as fuel,
which is enough for every text (`parseJSON_of_scanValue`). -/
def parseJSON (data : String) : Option JSON :=
  match scanValue (data.length + 1) 0 (skipSpace data.toList) with
  | none => none
  | some (v, out) => if skipSpace out = [] then some v else none

/-- `strconv.ParseInt(lit, 10, 64)` on a JSON number literal: the value when the
literal has neither fraction nor exponent and fits 64 bits (`int` on a 64-bit
platform), `none` otherwise. -/
def parseInt64 (lit : String) : Option Int :=
  let cs := lit.toList
  let neg := cs.head? == some '-'
  let ds := if neg then cs.drop 1 else cs
  if ds ≠ [] ∧ ds.all isDigit = true then
    let n := ds.foldl (fun acc c => acc * 10 + (c.toNat - '0'.toNat)) 0
    if neg then (if n ≤ 2 ^ 63 then some (-(n : Int)) else none)
    else (if n < 2 ^ 63 then some (n : Int) else none)
  else none

/-- Storing a JSON value into an `int` field: the new field value and whether the
value was acceptable.  A number that parses is stored, `null` leaves the field
alone, anything else is a type error that leaves the field alone. -/
def storeInt (cur : Int) : JSON → Int × Bool
  | .num lit =>
    match parseInt64 lit with
    | some n => (n, true)
    | none => (cur, false)
  | .null => (cur, true)
  | _ => (cur, false)

/-- Storing a JSON value into a `string` field. -/
def storeString (cur : String) : JSON → String × Bool
  | .str s => (s, true)
  | .null => (cur, true)
  | _ => (cur, false)

/-- The JSON names of the fields of the catalog struct, in declaration order
(the struct tags of main.go:16-20). -/
def catalogFields : List String :=
  ["epoch", "snapshot_date", "latest", "signature_ext", "min_client"]

/-- The JSON names of the fields of `Manifest` (the struct tag of main.go:21). -/
def manifestFields : List String := ["catalog"]

/-- The struct field an object key is decoded into: the field with exactly that
name, else the first field whose name matches case-insensitively, else none. -/
def findField (lib : GoLib) (names : List String) (key : String) : Option Nat :=
  if names.indexOf key < names.length then some (names.indexOf key)
  else
    let i := names.findIdx fun n => lib.foldName n == lib.foldName key
    if i < names.length then some i else none

/-- Decoding one object member into the catalog struct.  The flag is false once
some member had a value of the wrong type. -/
def setCatalogField (lib : GoLib) (acc : ManifestCatalog × Bool) (kv : String × JSON) :
    ManifestCatalog × Bool :=
  match findField lib catalogFields kv.1 with
  | some 0 =>
    let r := storeInt acc.1.Epoch kv.2
    ({ acc.1 with Epoch := r.1 }, acc.2 && r.2)
  | some 1 =>
    let r := storeString acc.1.SnapshotDate kv.2
    ({ acc.1 with SnapshotDate := r.1 }, acc.2 && r.2)
  | some 2 =>
    let r := storeString acc.1.Latest kv.2
    ({ acc.1 with Latest := r.1 }, acc.2 && r.2)
  | some 3 =>
    let r := storeString acc.1.SignatureExt kv.2
    ({ acc.1 with SignatureExt := r.1 }, acc.2 && r.2)
  | some 4 =>
    let r := storeString acc.1.MinClient kv.2
    ({ acc.1 with MinClient := r.1 }, acc.2 && r.2)
  | _ => acc

/-- Decoding a JSON value into the catalog struct: the members of an object are
decoded in order, `null` is a no-op, any other value is a type error. -/
def decodeCatalog (lib : GoLib) (cur : ManifestCatalog) : JSON → ManifestCatalog × Bool
  | .obj ms => ms.foldl (setCatalogField lib) (cur, true)
  | .null => (cur, true)
  | _ => (cur, false)

/-- Decoding one top-level object member into `Manifest`. -/
def setManifestField (lib : GoLib) (acc : Manifest × Bool) (kv : String × JSON) :
    Manifest × Bool :=
  match findField lib manifestFields kv.1 with
  | some 0 =>
    let r := decodeCatalog lib acc.1.Catalog kv.2
    ({ acc.1 with Catalog := r.1 }, acc.2 && r.2)
  | _ => acc

/-- Decoding a JSON value into `Manifest`. -/
def decodeManifest (lib : GoLib) (cur : Manifest) : JSON → Manifest × Bool
  | .obj ms => ms.foldl (setManifestField lib) (cur, true)
  | .null => (cur, true)
  | _ => (cur, false)

/-- `json.Unmarshal(data, &m)`: the value of `m` afterwards and the returned error.
A text that is not JSON leaves `m` untouched; a value of the wrong type leaves
its field untouched, the rest is still decoded, and an error is returned at the
end. -/
def unmarshal (lib : GoLib) (data : String) (m : Manifest) : Manifest × Option JsonError :=
  match parseJSON data with
  | none => (m, some .malformed)
  | some v =>
    let r := decodeManifest lib m v
    (r.1, if r.2 then none else some .mismatch)

/-! ## The program -/

/-- The call `json.Unmarshal(data, &m)` as a step of the run: it touches nothing
outside the process, and is recorded in the trace with its input and result. -/
def jsonUnmarshal {σ : Type} (lib : GoLib) (data : String) (m : Manifest) :
    Prog σ (Manifest × Option JsonError) :=
  fun s => .ret (unmarshal lib data m) s
    [.unmarshal data (unmarshal lib data m).1 (unmarshal lib data m).2]

/-- The statement `if err != nil { fmt.Fprintf(os.Stderr, what+": %v\n", err);
os.Exit(1) }`, which follows each of the three `cmd.Run()` calls of `main`
(main.go:76-79, 90-93, 98-101). -/
def exitOnError {σ : Type} (what : String) (err : GoError) : Prog σ Unit :=
  match err with
  | some e => do
    eprintf (what ++ ": " ++ e ++ "\n")
    osExit 1
  | none => pure ()

/-- `must` (main.go:24-29). -/
def must {σ : Type} (err : GoError) : Prog σ Unit :=
  match err with
  | some msg => do
    eprintf ("Error: " ++ msg ++ "\n")
    osExit 1
  | none => pure ()

/-- `download` (main.go:31-44), called from `site`.  The two deferred `Close`
calls run when the function returns, last deferred first; they do not run when
`must` exits the process. -/
def download {σ : Type} (w : World σ) (site : Site) (url path : String) : Prog σ Unit := do
  printf ("📥 Downloading " ++ url ++ " -> " ++ path ++ "\n")
  let r ← httpGet w site url
  must r.2
  let err ← osCreate w site path
  must err
  let err ← ioCopy w site path r.1
  must err
  closeFile w site path
  closeBody w site r.1

/-- The manifest URL of main.go:52-55. -/
def manifestURL (env : Env) : String :=
  if env.getenv "QP_MANIFEST_URL" = "" then
    "https://raw.githubusercontent.com/Matt-C-G/QuietPatch/main/manifest.json"
  else env.getenv "QP_MANIFEST_URL"

/-- The directory `db` of main.go:47-48. -/
def dbDir (lib : GoLib) (env : Env) : String :=
  lib.join (lib.join env.home ".quietpatch") "db"

/-- `main` (main.go:46-107).  The error results of `os.MkdirAll` and of
`json.Unmarshal` are dropped, as in the source.  The `resp.Body.Close()` deferred
at main.go:59 runs when `main` returns, not when the process exits. -/
def main {σ : Type} (lib : GoLib) (env : Env) (w : World σ) : Prog σ Unit := do
  let qp := lib.join env.home ".quietpatch"
  let db := lib.join qp "db"
  let _ ← osMkdirAll w db 0o755
  -- Download manifest
  let manifestURL :=
    if env.getenv "QP_MANIFEST_URL" = "" then
      "https://raw.githubusercontent.com/Matt-C-G/QuietPatch/main/manifest.json"
    else env.getenv "QP_MANIFEST_URL"
  let resp ← httpGet w .getManifest manifestURL
  must resp.2
  let body ← ioReadAll w .getManifest resp.1
  must body.2
  let m ← jsonUnmarshal lib body.1 Manifest.zero
  let m := m.1
  -- Download manifest signature and verify
  let manifestPath := lib.join db "manifest.json"
  let manifestSigPath := lib.join db "manifest.json.minisig"
  download w .dlManifest manifestURL manifestPath
  download w .dlManifestSig (manifestURL ++ ".minisig") manifestSigPath
  -- Verify manifest signature
  let err ← cmdRun w .verifyManifest
    ["minisign", "-Vm", manifestPath, "-P", env.getenv "QP_MINISIGN_PUBKEY"] none
  exitOnError "❌ Manifest signature verification failed" err
  -- Download database and signature
  let zstPath := lib.join db "qp_db-latest.tar.zst"
  let sigPath := zstPath ++ m.Catalog.SignatureExt
  download w .dlArtifact m.Catalog.Latest zstPath
  download w .dlArtifactSig (m.Catalog.Latest ++ m.Catalog.SignatureExt) sigPath
  -- Verify database signature
  let err ← cmdRun w .verifyArtifact
    ["minisign", "-Vm", zstPath, "-P", env.getenv "QP_MINISIGN_PUBKEY"] none
  exitOnError "❌ Database signature verification failed" err
  -- Extract using quietpatch db apply
  let err ← cmdRun w .activate ["quietpatch", "db", "apply", zstPath, sigPath]
    (some (env.environ ++ ["QP_OFFLINE=1"]))
  exitOnError "❌ Database extraction failed" err
  printf "✅ Catalog updated successfully!\n"
  printf ("   Epoch: " ++ toString m.Catalog.Epoch ++ "\n")
  printf ("   Date: " ++ m.Catalog.SnapshotDate ++ "\n")
  printf ("   Location: " ++ db ++ "\n")
  closeBody w .getManifest resp.1

/-! ## Vocabulary for stating properties of a run -/

/-- A property of an outcome, given as a property of its trace and exit status. -/
def Res.Sat {σ α : Type} (r : Res σ α) (P : List Event → Nat → Prop) : Prop :=
  P r.trace r.exitCode

/-- The call site of an event that goes to the outside world. -/
def Event.site? : Event → Option Site
  | .httpGet s _ _ _ => some s
  | .readAll s _ _ _ => some s
  | .create s _ _ => some s
  | .copy s _ _ _ _ => some s
  | .closeFile s _ => some s
  | .closeBody s _ => some s
  | .run s _ _ _ => some s
  | _ => none

/-- The error of a fetch action (`http.Get`, `io.ReadAll`, `os.Create`,
`io.Copy`), `none` for a fetch action that succeeded and for any other event. -/
def Event.fetchError : Event → GoError
  | .httpGet _ _ _ err => err
  | .readAll _ _ _ err => err
  | .create _ _ err => err
  | .copy _ _ _ _ err => err
  | _ => none

/-- The error of a child process (`cmd.Run`), `none` for any other event. -/
def Event.runError : Event → GoError
  | .run _ _ _ err => err
  | _ => none

/-- The event is `cmd.Run` at `site` returning `nil`. -/
def Event.ranOk (site : Site) : Event → Bool
  | .run s _ _ none => s == site
  | _ => false

/-- The event is `cmd.Run` at `site` returning an error. -/
def Event.ranBad (site : Site) : Event → Bool
  | .run s _ _ (some _) => s == site
  | _ => false

/-- The event belongs to one of the two artifact downloads (main.go:85-86). -/
def Event.isArtifactFetch (e : Event) : Bool :=
  e.site? == some .dlArtifact || e.site? == some .dlArtifactSig

/-- The event is the activation call (main.go:96-98). -/
def Event.isActivation (e : Event) : Bool :=
  e.site? == some .activate

/-- The texts written to standard output, in order. -/
def stdoutOf : List Event → List String
  | [] => []
  | .stdout text :: rest => text :: stdoutOf rest
  | _ :: rest => stdoutOf rest

/-- Trace check for the order of the trust decisions, reading the trace from the
left: `mv` (`av`) records that the manifest (artifact) verification has returned
success; an artifact fetch needs `mv`, an activation needs `av`. -/
def orderOK : Bool → Bool → List Event → Bool
  | _, _, [] => true
  | mv, av, e :: rest =>
    (!e.isArtifactFetch || mv) && (!e.isActivation || av) &&
      orderOK (mv || e.ranOk .verifyManifest) (av || e.ranOk .verifyArtifact) rest

/-- What the program does next with a response of `http.Get` at `site`: it
reads the body (main.go:61), or it creates the local file (main.go:38) and, when
that succeeded, copies the body into the file (main.go:42). -/
def bodyUsed (site : Site) (resp : Response) : List Event → Prop
  | .readAll s b _ _ :: _ => s = site ∧ b = resp.body
  | .create s path none :: .copy s' path' b _ _ :: _ =>
    s = site ∧ s' = site ∧ path' = path ∧ b = resp.body
  | .create s _ (some _) :: _ => s = site
  | _ => False

/-- Trace check for the fetches.  Right after a fetch action that returned an
error comes the diagnostic of `must`, nothing more, and the exit status is 1.
After an `http.Get` that returned no error, whatever the status code of the
response, the body is used. -/
def fetchFatal (code : Nat) : List Event → Prop
  | [] => True
  | e :: rest =>
    (∀ msg, e.fetchError = some msg →
      rest = [.stderr ("Error: " ++ msg ++ "\n")] ∧ code = 1) ∧
    (∀ site url resp, e = .httpGet site url resp none → bodyUsed site resp rest) ∧
    fetchFatal code rest

/-- Trace check for a failed verification: when the manifest verification
returned an error the trace has no artifact fetch, and when the artifact
verification returned an error it has no activation. -/
def failedStops (t : List Event) : Bool :=
  (!t.any (Event.ranBad .verifyManifest) || t.all (fun e => !e.isArtifactFetch)) &&
  (!t.any (Event.ranBad .verifyArtifact) || t.all (fun e => !e.isActivation))

/-- The members `ms'` are the members `ms` with further members put in, at any
place, whose keys match no field of the struct with the field names `names`,
neither exactly nor after case folding (`findField`).  The value of a member that
is kept may change as `sub` allows. -/
inductive AddsUnknown (lib : GoLib) (names : List String) (sub : JSON → JSON → Prop) :
    List (String × JSON) → List (String × JSON) → Prop
  | nil : AddsUnknown lib names sub [] []
  | keep (k : String) (v v' : JSON) (ms ms' : List (String × JSON)) :
    sub v v' → AddsUnknown lib names sub ms ms' →
    AddsUnknown lib names sub ((k, v) :: ms) ((k, v') :: ms')
  | add (k : String) (u : JSON) (ms ms' : List (String × JSON)) :
    findField lib names k = none → AddsUnknown lib names sub ms ms' →
    AddsUnknown lib names sub ms ((k, u) :: ms')

/-- The value `v'` is `v`, or both are objects and `v'` has unknown catalog
fields added. -/
def AddsUnknownCatalog (lib : GoLib) (v v' : JSON) : Prop :=
  v' = v ∨ ∃ cs cs', v = .obj cs ∧ v' = .obj cs' ∧
    AddsUnknown lib catalogFields (fun a b => b = a) cs cs'

/-- The manifest text `v'` is the manifest text `v` with unknown fields added at
top level or inside a catalog object. -/
def AddsUnknownManifest (lib : GoLib) (v v' : JSON) : Prop :=
  ∃ ms ms', v = .obj ms ∧ v' = .obj ms' ∧
    AddsUnknown lib manifestFields (AddsUnknownCatalog lib) ms ms'

/-- The URLs of a run, read off its trace: every `http.Get` at a given call site
has the URL the source computes there, for the two artifact downloads from the
manifest that `json.Unmarshal` produced. -/
def urlsAsComputed (env : Env) (t : List Event) : Prop :=
  ∀ site url resp err, Event.httpGet site url resp err ∈ t →
    (site = .getManifest → url = manifestURL env) ∧
    (site = .dlManifest → url = manifestURL env) ∧
    (site = .dlManifestSig → url = manifestURL env ++ ".minisig") ∧
    (∀ data m uerr, Event.unmarshal data m uerr ∈ t →
      (site = .dlArtifact → url = m.Catalog.Latest) ∧
      (site = .dlArtifactSig → url = m.Catalog.Latest ++ m.Catalog.SignatureExt))

/-- The event is not a fetch action or child process that returned an error. -/
def Event.succeeded (e : Event) : Bool := e.fetchError.isNone && e.runError.isNone

/-- The `http.Get` calls of a trace, in order: call site and URL. -/
def getsOf : List Event → List (Site × String)
  | [] => []
  | .httpGet site url _ _ :: rest => (site, url) :: getsOf rest
  | _ :: rest => getsOf rest

/-- The child processes of a run, read off its trace: every `cmd.Run` at a given
call site has the arguments the source gives it there. -/
def runsAsComputed (lib : GoLib) (env : Env) (t : List Event) : Prop :=
  ∀ site argv cenv err, Event.run site argv cenv err ∈ t →
    (site = .verifyManifest →
      argv = ["minisign", "-Vm", lib.join (dbDir lib env) "manifest.json", "-P",
        env.getenv "QP_MINISIGN_PUBKEY"] ∧ cenv = none) ∧
    (site = .verifyArtifact →
      argv = ["minisign", "-Vm", lib.join (dbDir lib env) "qp_db-latest.tar.zst", "-P",
        env.getenv "QP_MINISIGN_PUBKEY"] ∧ cenv = none) ∧
    (site = .activate → ∀ data m uerr, Event.unmarshal data m uerr ∈ t →
      argv = ["quietpatch", "db", "apply", lib.join (dbDir lib env) "qp_db-latest.tar.zst",
        lib.join (dbDir lib env) "qp_db-latest.tar.zst" ++ m.Catalog.SignatureExt] ∧
      cenv = some (env.environ ++ ["QP_OFFLINE=1"]))

/-- The events of one `download(url, path)` at `site` in which every call
succeeds: `resp` is the response and `data` the bytes copied into the file. -/
def downloadTrace (site : Site) (url path : String) (resp : Response) (data : String) :
    List Event :=
  [.stdout ("📥 Downloading " ++ url ++ " -> " ++ path ++ "\n"),
   .httpGet site url resp none,
   .create site path none,
   .copy site path resp.body data none,
   .closeFile site path,
   .closeBody site resp.body]

/-- The trace of a run of `main` in which every fetch action and every child
process succeeds, given what the outside world answered: the error of
`os.MkdirAll`, the five responses, the bytes `body` read from the first one and
the bytes copied from the other four. -/
def successTrace (lib : GoLib) (env : Env) (mkErr : GoError) (r0 r1 r2 r3 r4 : Response)
    (body d1 d2 d3 d4 : String) : List Event :=
  let db := dbDir lib env
  let m := (unmarshal lib body Manifest.zero).1
  [.mkdirAll db 0o755 mkErr,
   .httpGet .getManifest (manifestURL env) r0 none,
   .readAll .getManifest r0.body body none,
   .unmarshal body m (unmarshal lib body Manifest.zero).2] ++
  downloadTrace .dlManifest (manifestURL env) (lib.join db "manifest.json") r1 d1 ++
  downloadTrace .dlManifestSig (manifestURL env ++ ".minisig")
    (lib.join db "manifest.json.minisig") r2 d2 ++
  [.run .verifyManifest
    ["minisign", "-Vm", lib.join db "manifest.json", "-P", env.getenv "QP_MINISIGN_PUBKEY"]
    none none] ++
  downloadTrace .dlArtifact m.Catalog.Latest (lib.join db "qp_db-latest.tar.zst") r3 d3 ++
  downloadTrace .dlArtifactSig (m.Catalog.Latest ++ m.Catalog.SignatureExt)
    (lib.join db "qp_db-latest.tar.zst" ++ m.Catalog.SignatureExt) r4 d4 ++
  [.run .verifyArtifact
    ["minisign", "-Vm", lib.join db "qp_db-latest.tar.zst", "-P",
      env.getenv "QP_MINISIGN_PUBKEY"] none none,
   .run .activate
    ["quietpatch", "db", "apply", lib.join db "qp_db-latest.tar.zst",
      lib.join db "qp_db-latest.tar.zst" ++ m.Catalog.SignatureExt]
    (some (env.environ ++ ["QP_OFFLINE=1"])) none,
   .stdout "✅ Catalog updated successfully!\n",
   .stdout ("   Epoch: " ++ toString m.Catalog.Epoch ++ "\n"),
   .stdout ("   Date: " ++ m.Catalog.SnapshotDate ++ "\n"),
   .stdout ("   Location: " ++ db ++ "\n"),
   .closeBody .getManifest r0.body]

/-- A run without a failed fetch action or child process has the trace
`successTrace`, for some answers of the outside world, and exit status 0. -/
def succeedsAsTraced (lib : GoLib) (env : Env) (t : List Event) (c : Nat) : Prop :=
  t.all Event.succeeded = true →
    c = 0 ∧ ∃ mkErr r0 r1 r2 r3 r4 body d1 d2 d3 d4,
      t = successTrace lib env mkErr r0 r1 r2 r3 r4 body d1 d2 d3 d4

/-- The two errors that `main` drops, read off a trace: the run starts with
`os.MkdirAll` and, whatever it returned, goes on with the request for the
manifest; and whatever `json.Unmarshal` returned (event 3), the run goes on
with the first download (the notice of `download`, event 4). -/
def errorsDropped (lib : GoLib) (env : Env) (t : List Event) : Prop :=
  (∃ err resp gerr, t[0]? = some (.mkdirAll (dbDir lib env) 0o755 err) ∧
    t[1]? = some (.httpGet .getManifest (manifestURL env) resp gerr)) ∧
  (∀ data m uerr, t[3]? = some (.unmarshal data m uerr) →
    t[4]? = some (.stdout ("📥 Downloading " ++ manifestURL env ++ " -> " ++
      lib.join (dbDir lib env) "manifest.json" ++ "\n")))

/-! ## A simulated outside world, for concrete runs

A small web, file system and pair of child processes.  `minisign -Vm file -P key`
is simulated with the tool's own convention for a call without `-x`: the
signature is read from `file ++ ".minisig"`.  A signature is valid when it is
`toySign key data` for the data of the file. -/

/-- State of the simulated world. -/
structure Sim where
  /-- The URLs requested so far. -/
  requests : List String
  /-- The bodies of the responses so far; a body is identified by its position. -/
  bodies : List String
  /-- The files written so far as (path, content), latest write first. -/
  files : List (String × String)
  /-- Whether `os.MkdirAll` has made the directory. -/
  dirMade : Bool
deriving DecidableEq, Repr

/-- The initial simulated state. -/
def Sim.init : Sim := ⟨[], [], [], false⟩

/-- A simulated web: from the earlier requests and a URL to a status code and a
body, or `none` when the server cannot be reached. -/
abbrev Server := List String → String → Option (Nat × String)

/-- The signature of `data` under `key` in the simulation. -/
def toySign (key data : String) : String := "SIG[" ++ key ++ "]" ++ data

/-- The simulated child processes. -/
def simRun (files : List (String × String)) : List String → GoError
  | ["minisign", "-Vm", file, "-P", key] =>
    match files.lookup file, files.lookup (file ++ ".minisig") with
    | some data, some sg => if sg = toySign key data then none else some "exit status 1"
    | _, _ => some "exit status 1"
  | ["quietpatch", "db", "apply", _, _] => none
  | _ => some "executable file not found in $PATH"

/-- The simulated world over a web `serve`; `mkdirErr` is the answer of
`os.MkdirAll`, and a file can be created only after the directory was made. -/
def simWorld (serve : Server) (mkdirErr : GoError) : World Sim where
  mkdirAll := fun _ _ s => (mkdirErr, { s with dirMade := mkdirErr.isNone })
  httpGet := fun url s =>
    match serve s.requests url with
    | some (status, body) =>
      ((⟨status, s.bodies.length⟩, none),
        { s with requests := s.requests ++ [url], bodies := s.bodies ++ [body] })
    | none =>
      ((⟨0, 0⟩, some ("Get \"" ++ url ++ "\": dial tcp: connection refused")),
        { s with requests := s.requests ++ [url] })
  readAll := fun h s => ((s.bodies.getD h "", none), s)
  create := fun path s =>
    if s.dirMade then (none, { s with files := (path, "") :: s.files })
    else (some ("open " ++ path ++ ": no such file or directory"), s)
  copy := fun path h s =>
    ((s.bodies.getD h "", none), { s with files := (path, s.bodies.getD h "") :: s.files })
  closeFile := fun _ s => s
  closeBody := fun _ s => s
  run := fun argv _ s => (simRun s.files argv, s)

/-- A web of fixed pages: a page that is there is served with status 200, any
other URL with status 404 and an error page as body. -/
def serveStatic (pages : List (String × String)) : Server := fun _ url =>
  match pages.lookup url with
  | some body => some (200, body)
  | none => some (404, "404: Not Found")

/-- A web that answers the first request for `url` with `first` and every other
request as `serveStatic pages`. -/
def serveSwitch (url first : String) (pages : List (String × String)) : Server :=
  fun reqs u => if u = url ∧ u ∉ reqs then some (200, first) else serveStatic pages reqs u

/-- `filepath.Join` on two elements that are clean, not empty and without a
separator at the end: the two joined by one separator. -/
def joinClean (a b : String) : String := a ++ "/" ++ b

/-- Key folding that maps the ASCII letters to upper case. -/
def foldASCII (key : String) : String := String.mk (key.toList.map Char.toUpper)

/-- The library functions used in the concrete runs. -/
def lib0 : GoLib := ⟨joinClean, foldASCII⟩

/-- The public key of the concrete runs. -/
def key0 : String := "RWQf6LRCGA9i53mlYecO4IzT51TGPpvW"

/-- The manifest URL of the concrete runs. -/
def url0 : String := "https://cdn.example/manifest.json"

/-- The process environment of the concrete runs. -/
def env0 : Env where
  home := "/home/u"
  getenv := fun k =>
    if k = "QP_MANIFEST_URL" then url0 else if k = "QP_MINISIGN_PUBKEY" then key0 else ""
  environ := ["HOME=/home/u"]

/-- The pages of a release: the manifest and the artifact named by it at
`latest`, each with its signature, the artifact signature at `latest ++ ext`. -/
def release (manifest latest ext : String) : List (String × String) :=
  [(url0, manifest), (url0 ++ ".minisig", toySign key0 manifest),
   (latest, "CATALOG-DATA"), (latest ++ ext, toySign key0 "CATALOG-DATA")]

/-- The manifest of the scenario of the specification. -/
def manifestGood : String :=
  "\x7b\"catalog\":\x7b\"epoch\":7,\"snapshot_date\":\"2024-01-01\"," ++
  "\"latest\":\"https://example/db.tar.zst\",\"signature_ext\":\".minisig\"," ++
  "\"min_client\":\"1.0\"\x7d\x7d"

/-- The manifest of the scenario with two fields added that the program does not
know: `build` at top level and `mirror` inside the catalog. -/
def manifestExtra : String :=
  "\x7b\"build\":[1,2],\"catalog\":\x7b\"epoch\":7,\"snapshot_date\":\"2024-01-01\"," ++
  "\"mirror\":\x7b\"eu\":null\x7d," ++
  "\"latest\":\"https://example/db.tar.zst\",\"signature_ext\":\".minisig\"," ++
  "\"min_client\":\"1.0\"\x7d\x7d"

/-- The manifest of the scenario with the member `"EPOCH":9` added at the end of
the catalog object.  No recognized field is spelled `EPOCH`. -/
def manifestUpper : String :=
  "\x7b\"catalog\":\x7b\"epoch\":7,\"snapshot_date\":\"2024-01-01\"," ++
  "\"latest\":\"https://example/db.tar.zst\",\"signature_ext\":\".minisig\"," ++
  "\"min_client\":\"1.0\",\"EPOCH\":9\x7d\x7d"

/-- The text of `n` arrays, one inside the other, the innermost empty: `n`
opening brackets and `n` closing ones. -/
def nestedArrays (n : Nat) : List Char := List.replicate n '[' ++ List.replicate n ']'

/-- The manifest of the scenario with the field `build` added in front at top
level, its value being `n` arrays one inside the other. -/
def manifestNested (n : Nat) : String :=
  String.mk ("\x7b\"build\":".toList ++ nestedArrays n ++ ',' :: manifestGood.toList.tail)

/-- A manifest whose `epoch` is a string, not an integer. -/
def manifestBadEpoch : String :=
  "\x7b\"catalog\":\x7b\"epoch\":\"7\",\"snapshot_date\":\"2024-01-01\"," ++
  "\"latest\":\"https://example/db.tar.zst\",\"signature_ext\":\".minisig\"," ++
  "\"min_client\":\"1.0\"\x7d\x7d"

/-- A manifest with `latest = "https://x/db.tar.zst"` and `signature_ext = ".sig"`. -/
def manifestSig : String :=
  "\x7b\"catalog\":\x7b\"epoch\":8,\"snapshot_date\":\"2024-02-01\"," ++
  "\"latest\":\"https://x/db.tar.zst\",\"signature_ext\":\".sig\"," ++
  "\"min_client\":\"1.0\"\x7d\x7d"

/-- A manifest that was never signed and names an artifact on another host. -/
def manifestForged : String :=
  "\x7b\"catalog\":\x7b\"epoch\":9,\"snapshot_date\":\"2024-03-01\"," ++
  "\"latest\":\"https://evil.example/db.tar.zst\",\"signature_ext\":\".minisig\"," ++
  "\"min_client\":\"1.0\"\x7d\x7d"

/-- The web of the scenario of the specification. -/
def webGood : Server := serveStatic (release manifestGood "https://example/db.tar.zst" ".minisig")

/-- The web of the release whose manifest has a string as `epoch`. -/
def webBadEpoch : Server :=
  serveStatic (release manifestBadEpoch "https://example/db.tar.zst" ".minisig")

/-- The web of the release whose artifact signature is published at
`latest ++ ".sig"`. -/
def webSig : Server := serveStatic (release manifestSig "https://x/db.tar.zst" ".sig")

/-- A web that answers the first request for the manifest with the forged
manifest and afterwards serves the signed release; the other host serves a copy
of signed catalog data. -/
def webForged : Server :=
  serveSwitch url0 manifestForged
    (release manifestGood "https://example/db.tar.zst" ".minisig" ++
      [("https://evil.example/db.tar.zst", "CATALOG-DATA"),
       ("https://evil.example/db.tar.zst.minisig", toySign key0 "CATALOG-DATA")])

/-- A web on which nothing is published: every URL is answered with status 404. -/
def webEmpty : Server := serveStatic []

set_option maxRecDepth 1000000

/-! ## The trace monad: laws and stepping rules -/

section
variable {σ α β γ : Type}

theorem bind_eq (x : Prog σ α) (f : α → Prog σ β) : (x >>= f) = Prog.bind x f := rfl
theorem pure_eq (a : α) : (pure a : Prog σ α) = Prog.pure a := rfl

theorem prepend_nil (r : Res σ α) : r.prepend [] = r := by cases r <;> rfl
theorem bind_assoc' (x : Prog σ α) (f : α → Prog σ β) (g : β → Prog σ γ) :
    Prog.bind (Prog.bind x f) g = Prog.bind x (fun a => Prog.bind (f a) g) := by
  funext s
  simp only [Prog.bind]
  cases x s with
  | ret a s1 e1 =>
    simp only
    cases f a s1 with
    | ret b s2 e2 =>
      simp only [Res.prepend]
      cases g b s2 <;> simp [Res.prepend]
    | exit c s2 e2 => simp [Res.prepend]
  | exit c s1 e1 => rfl

end

section
variable {σ α β γ : Type}

theorem sat_prepend (evs : List Event) (r : Res σ α) (P : List Event → Nat → Prop) :
    (r.prepend evs).Sat P ↔ r.Sat (fun t c => P (evs ++ t) c) := by
  cases r <;> rfl

theorem sat_step (x : Prog σ α) (f : α → Prog σ β) (s : σ) (P : List Event → Nat → Prop)
    (a : α) (s1 : σ) (e1 : List Event) (hx : x s = .ret a s1 e1)
    (h : (f a s1).Sat (fun t c => P (e1 ++ t) c)) : (Prog.bind x f s).Sat P := by
  simp only [Prog.bind, hx]
  exact (sat_prepend e1 _ P).2 h

theorem sat_osMkdirAll (w : World σ) (path : String) (perm : Nat) (f : GoError → Prog σ β)
    (s : σ) (P : List Event → Nat → Prop)
    (h : ∀ err s1, (f err s1).Sat (fun t c => P (.mkdirAll path perm err :: t) c)) :
    (Prog.bind (osMkdirAll w path perm) f s).Sat P :=
  sat_step _ f s P _ _ _ rfl (h _ _)

theorem sat_httpGet (w : World σ) (site : Site) (url : String)
    (f : Response × GoError → Prog σ β) (s : σ) (P : List Event → Nat → Prop)
    (h : ∀ resp err s1, (f (resp, err) s1).Sat (fun t c => P (.httpGet site url resp err :: t) c)) :
    (Prog.bind (httpGet w site url) f s).Sat P :=
  sat_step _ f s P _ _ _ rfl (h _ _ _)

theorem sat_ioReadAll (w : World σ) (site : Site) (resp : Response)
    (f : String × GoError → Prog σ β) (s : σ) (P : List Event → Nat → Prop)
    (h : ∀ data err s1,
      (f (data, err) s1).Sat (fun t c => P (.readAll site resp.body data err :: t) c)) :
    (Prog.bind (ioReadAll w site resp) f s).Sat P :=
  sat_step _ f s P _ _ _ rfl (h _ _ _)

theorem sat_osCreate (w : World σ) (site : Site) (path : String)
    (f : GoError → Prog σ β) (s : σ) (P : List Event → Nat → Prop)
    (h : ∀ err s1, (f err s1).Sat (fun t c => P (.create site path err :: t) c)) :
    (Prog.bind (osCreate w site path) f s).Sat P :=
  sat_step _ f s P _ _ _ rfl (h _ _)

theorem sat_ioCopy (w : World σ) (site : Site) (path : String) (resp : Response)
    (f : GoError → Prog σ β) (s : σ) (P : List Event → Nat → Prop)
    (h : ∀ data err s1,
      (f err s1).Sat (fun t c => P (.copy site path resp.body data err :: t) c)) :
    (Prog.bind (ioCopy w site path resp) f s).Sat P :=
  sat_step _ f s P _ _ _ rfl (h _ _ _)

theorem sat_closeFile (w : World σ) (site : Site) (path : String)
    (f : Unit → Prog σ β) (s : σ) (P : List Event → Nat → Prop)
    (h : ∀ s1, (f () s1).Sat (fun t c => P (.closeFile site path :: t) c)) :
    (Prog.bind (closeFile w site path) f s).Sat P :=
  sat_step _ f s P _ _ _ rfl (h _)

theorem sat_closeBody (w : World σ) (site : Site) (resp : Response)
    (f : Unit → Prog σ β) (s : σ) (P : List Event → Nat → Prop)
    (h : ∀ s1, (f () s1).Sat (fun t c => P (.closeBody site resp.body :: t) c)) :
    (Prog.bind (closeBody w site resp) f s).Sat P :=
  sat_step _ f s P _ _ _ rfl (h _)

theorem sat_cmdRun (w : World σ) (site : Site) (argv : List String)
    (env : Option (List String)) (f : GoError → Prog σ β) (s : σ)
    (P : List Event → Nat → Prop)
    (h : ∀ err s1, (f err s1).Sat (fun t c => P (.run site argv env err :: t) c)) :
    (Prog.bind (cmdRun w site argv env) f s).Sat P :=
  sat_step _ f s P _ _ _ rfl (h _ _)

theorem sat_printf (text : String) (f : Unit → Prog σ β) (s : σ)
    (P : List Event → Nat → Prop)
    (h : (f () s).Sat (fun t c => P (.stdout text :: t) c)) :
    (Prog.bind (printf text) f s).Sat P :=
  sat_step _ f s P _ _ _ rfl h

theorem sat_jsonUnmarshal (lib : GoLib) (data : String) (m : Manifest)
    (f : Manifest × Option JsonError → Prog σ β) (s : σ) (P : List Event → Nat → Prop)
    (h : (f (unmarshal lib data m) s).Sat
      (fun t c => P (.unmarshal data (unmarshal lib data m).1 (unmarshal lib data m).2 :: t) c)) :
    (Prog.bind (jsonUnmarshal lib data m) f s).Sat P :=
  sat_step _ f s P _ _ _ rfl h

theorem sat_must_none (f : Unit → Prog σ β) (s : σ) (P : List Event → Nat → Prop)
    (h : (f () s).Sat P) : (Prog.bind (must none) f s).Sat P := by
  have : Prog.bind (must none) f s = f () s := by
    simp only [Prog.bind, must, pure_eq, Prog.pure, prepend_nil]
  rw [this]; exact h

theorem sat_must_some (msg : String) (f : Unit → Prog σ β) (s : σ)
    (P : List Event → Nat → Prop) (h : P [.stderr ("Error: " ++ msg ++ "\n")] 1) :
    (Prog.bind (must (some msg)) f s).Sat P := h

theorem sat_exitOnError_none (what : String) (f : Unit → Prog σ β) (s : σ)
    (P : List Event → Nat → Prop)
    (h : (f () s).Sat P) : (Prog.bind (exitOnError what none) f s).Sat P := by
  have : Prog.bind (exitOnError what none) f s = f () s := by
    simp only [Prog.bind, exitOnError, pure_eq, Prog.pure, prepend_nil]
  rw [this]; exact h

theorem sat_exitOnError_some (what msg : String) (f : Unit → Prog σ β) (s : σ)
    (P : List Event → Nat → Prop) (h : P [.stderr (what ++ ": " ++ msg ++ "\n")] 1) :
    (Prog.bind (exitOnError what (some msg)) f s).Sat P := h

end

/-! ## Properties of every run -/

theorem orderOK_sound (t : List Event) : ∀ (mv av : Bool), orderOK mv av t = true →
    ∀ (i : Nat) (e : Event), t[i]? = some e →
      (e.isArtifactFetch = true →
        mv = true ∨ ∃ e' ∈ t.take i, e'.ranOk .verifyManifest = true) ∧
      (e.isActivation = true →
        av = true ∨ ∃ e' ∈ t.take i, e'.ranOk .verifyArtifact = true) := by
  induction t with
  | nil => intro mv av _ i e he; simp at he
  | cons x rest ih =>
    intro mv av h i e he
    simp only [orderOK, Bool.and_eq_true, Bool.or_eq_true, Bool.not_eq_true'] at h
    obtain ⟨⟨h1, h2⟩, h3⟩ := h
    cases i with
    | zero =>
      simp only [List.getElem?_cons_zero, Option.some.injEq] at he
      subst he
      constructor
      · intro hf
        rcases h1 with h1 | h1
        · rw [hf] at h1; cases h1
        · exact Or.inl h1
      · intro hf
        rcases h2 with h2 | h2
        · rw [hf] at h2; cases h2
        · exact Or.inl h2
    | succ j =>
      simp only [List.getElem?_cons_succ] at he
      obtain ⟨ha, hb⟩ := ih _ _ h3 j e he
      constructor
      · intro hf
        rcases ha hf with hm | ⟨e', he', hok⟩
        · simp only [Bool.or_eq_true] at hm
          rcases hm with hm | hm
          · exact Or.inl hm
          · exact Or.inr ⟨x, by simp, hm⟩
        · exact Or.inr ⟨e', by simp [he'], hok⟩
      · intro hf
        rcases hb hf with hm | ⟨e', he', hok⟩
        · simp only [Bool.or_eq_true] at hm
          rcases hm with hm | hm
          · exact Or.inl hm
          · exact Or.inr ⟨x, by simp, hm⟩
        · exact Or.inr ⟨e', by simp [he'], hok⟩

theorem main_orderOK {σ : Type} (lib : GoLib) (env : Env) (w : World σ) (s : σ) :
    (main lib env w s).Sat (fun t _ => orderOK false false t = true ∧ failedStops t = true) := by
  simp only [main, download, bind_eq, bind_assoc']
  repeat' first
    | (apply sat_osMkdirAll; intro _ _)
    | (apply sat_httpGet; intro _ err _; cases err)
    | (apply sat_ioReadAll; intro _ err _; cases err)
    | (apply sat_osCreate; intro err _; cases err)
    | (apply sat_ioCopy; intro _ err _; cases err)
    | (apply sat_closeFile; intro _)
    | (apply sat_closeBody; intro _)
    | (apply sat_cmdRun; intro err _; cases err)
    | apply sat_printf
    | apply sat_jsonUnmarshal
    | apply sat_must_none
    | apply sat_must_some
    | apply sat_exitOnError_none
    | apply sat_exitOnError_some
  all_goals exact ⟨rfl, rfl⟩


theorem fetchFatal_sound (code : Nat) (t : List Event) : fetchFatal code t →
    ∀ (i : Nat) (e : Event), t[i]? = some e →
      (∀ msg, e.fetchError = some msg →
        t.drop (i + 1) = [.stderr ("Error: " ++ msg ++ "\n")] ∧ code = 1) ∧
      (∀ site url resp, e = .httpGet site url resp none →
        bodyUsed site resp (t.drop (i + 1))) := by
  induction t with
  | nil => intro _ i e he; simp at he
  | cons x rest ih =>
    intro h i e he
    obtain ⟨hx, hb, hrest⟩ := h
    cases i with
    | zero =>
      simp only [List.getElem?_cons_zero, Option.some.injEq] at he
      subst he
      exact ⟨by simpa using hx, by simpa using hb⟩
    | succ j =>
      simp only [List.getElem?_cons_succ] at he
      simpa using ih hrest j e he

theorem main_fetchFatal {σ : Type} (lib : GoLib) (env : Env) (w : World σ) (s : σ) :
    (main lib env w s).Sat (fun t c => fetchFatal c t) := by
  simp only [main, download, bind_eq, bind_assoc']
  repeat' first
    | (apply sat_osMkdirAll; intro _ _)
    | (apply sat_httpGet; intro _ err _; cases err)
    | (apply sat_ioReadAll; intro _ err _; cases err)
    | (apply sat_osCreate; intro err _; cases err)
    | (apply sat_ioCopy; intro _ err _; cases err)
    | (apply sat_closeFile; intro _)
    | (apply sat_closeBody; intro _)
    | (apply sat_cmdRun; intro err _; cases err)
    | apply sat_printf
    | apply sat_jsonUnmarshal
    | apply sat_must_none
    | apply sat_must_some
    | apply sat_exitOnError_none
    | apply sat_exitOnError_some
  all_goals simp [Res.Sat, Res.trace, Res.exitCode, closeBody, fetchFatal, Event.fetchError, bodyUsed]

theorem main_urlsAsComputed {σ : Type} (lib : GoLib) (env : Env) (w : World σ) (s : σ) :
    (main lib env w s).Sat (fun t _ => urlsAsComputed env t) := by
  simp only [main, download, bind_eq, bind_assoc']
  repeat' first
    | (apply sat_osMkdirAll; intro _ _)
    | (apply sat_httpGet; intro _ err _; cases err)
    | (apply sat_ioReadAll; intro _ err _; cases err)
    | (apply sat_osCreate; intro err _; cases err)
    | (apply sat_ioCopy; intro _ err _; cases err)
    | (apply sat_closeFile; intro _)
    | (apply sat_closeBody; intro _)
    | (apply sat_cmdRun; intro err _; cases err)
    | apply sat_printf
    | apply sat_jsonUnmarshal
    | apply sat_must_none
    | apply sat_must_some
    | apply sat_exitOnError_none
    | apply sat_exitOnError_some
  all_goals
    simp only [Res.Sat, Res.trace, closeBody, urlsAsComputed, manifestURL]
    intro site url resp err h
    simp only [List.mem_cons, List.mem_singleton, Event.httpGet.injEq, reduceCtorEq,
      false_or, or_false, List.not_mem_nil] at h
    simp only [List.mem_cons, List.mem_singleton, Event.unmarshal.injEq, reduceCtorEq,
      false_or, or_false, List.not_mem_nil, false_implies, implies_true, and_true]
    (try casesm* _ ∨ _) <;> casesm* _ ∧ _ <;> subst_vars <;> simp <;> (intros; subst_vars; rfl)

theorem main_runsAsComputed {σ : Type} (lib : GoLib) (env : Env) (w : World σ) (s : σ) :
    (main lib env w s).Sat (fun t _ => runsAsComputed lib env t) := by
  simp only [main, download, bind_eq, bind_assoc']
  repeat' first
    | (apply sat_osMkdirAll; intro _ _)
    | (apply sat_httpGet; intro _ err _; cases err)
    | (apply sat_ioReadAll; intro _ err _; cases err)
    | (apply sat_osCreate; intro err _; cases err)
    | (apply sat_ioCopy; intro _ err _; cases err)
    | (apply sat_closeFile; intro _)
    | (apply sat_closeBody; intro _)
    | (apply sat_cmdRun; intro err _; cases err)
    | apply sat_printf
    | apply sat_jsonUnmarshal
    | apply sat_must_none
    | apply sat_must_some
    | apply sat_exitOnError_none
    | apply sat_exitOnError_some
  all_goals
    simp only [Res.Sat, Res.trace, closeBody, runsAsComputed, dbDir]
    intro site argv cenv err h
    first
      | (simp only [List.mem_cons, List.mem_singleton, Event.run.injEq, reduceCtorEq,
          false_or, or_false, List.not_mem_nil] at h
         done)
      | (simp only [List.mem_cons, List.mem_singleton, Event.run.injEq, reduceCtorEq,
          false_or, or_false, List.not_mem_nil] at h
         simp only [List.mem_cons, List.mem_singleton, Event.unmarshal.injEq, reduceCtorEq,
          false_or, or_false, List.not_mem_nil, false_implies, implies_true, and_true]
         (try casesm* _ ∨ _) <;> casesm* _ ∧ _ <;> subst_vars <;> simp <;>
          (intros; subst_vars; rfl))

theorem main_succeedsAsTraced {σ : Type} (lib : GoLib) (env : Env) (w : World σ) (s : σ) :
    (main lib env w s).Sat (succeedsAsTraced lib env) := by
  simp only [main, download, bind_eq, bind_assoc']
  repeat' first
    | (apply sat_osMkdirAll; intro _ _)
    | (apply sat_httpGet; intro _ err _; cases err)
    | (apply sat_ioReadAll; intro _ err _; cases err)
    | (apply sat_osCreate; intro err _; cases err)
    | (apply sat_ioCopy; intro _ err _; cases err)
    | (apply sat_closeFile; intro _)
    | (apply sat_closeBody; intro _)
    | (apply sat_cmdRun; intro err _; cases err)
    | apply sat_printf
    | apply sat_jsonUnmarshal
    | apply sat_must_none
    | apply sat_must_some
    | apply sat_exitOnError_none
    | apply sat_exitOnError_some
  all_goals
    simp only [Res.Sat, Res.trace, Res.exitCode, closeBody, succeedsAsTraced]
    first
      | (intro h; exact absurd h Bool.false_ne_true)
      | (intro _
         exact ⟨trivial, _, _, _, _, _, _, _, _, _, _, _, rfl⟩)

theorem main_errorsDropped {σ : Type} (lib : GoLib) (env : Env) (w : World σ) (s : σ) :
    (main lib env w s).Sat (fun t _ => errorsDropped lib env t) := by
  simp only [main, download, bind_eq, bind_assoc']
  repeat' first
    | (apply sat_osMkdirAll; intro _ _)
    | (apply sat_httpGet; intro _ err _; cases err)
    | (apply sat_ioReadAll; intro _ err _; cases err)
    | (apply sat_osCreate; intro err _; cases err)
    | (apply sat_ioCopy; intro _ err _; cases err)
    | (apply sat_closeFile; intro _)
    | (apply sat_closeBody; intro _)
    | (apply sat_cmdRun; intro err _; cases err)
    | apply sat_printf
    | apply sat_jsonUnmarshal
    | apply sat_must_none
    | apply sat_must_some
    | apply sat_exitOnError_none
    | apply sat_exitOnError_some
  all_goals
    simp only [Res.Sat, Res.trace, closeBody, errorsDropped, dbDir, manifestURL]
    refine ⟨⟨_, _, _, rfl, rfl⟩, ?_⟩
    intro data m uerr h
    first
      | (simp at h; done)
      | rfl

theorem all_succeeded (t : List Event)
    (h : ∀ e ∈ t, e.fetchError = none ∧ e.runError = none) :
    t.all Event.succeeded = true := by
  rw [List.all_eq_true]
  intro e he
  obtain ⟨h1, h2⟩ := h e he
  simp [Event.succeeded, h1, h2]
/-! ## The claims that hold of every run -/

theorem ranOk_eq (site : Site) (e : Event) (h : e.ranOk site = true) :
    ∃ argv cenv, e = .run site argv cenv none := by
  cases e with
  | run s argv cenv err =>
    cases err with
    | none =>
      simp only [Event.ranOk, beq_iff_eq] at h
      exact ⟨argv, cenv, by rw [h]⟩
    | some msg => simp [Event.ranOk] at h
  | _ => simp [Event.ranOk] at h

/-- C1 (order invariant).  For every world and every event `e` at position `i`
of the trace of `main`: if `e` belongs to the download of the artifact or of its
signature (main.go:85-86), then `minisign -Vm <db>/manifest.json -P <key>`, the
manifest verification (main.go:75-76), has returned without error at an earlier
position; if `e` is the activation call (main.go:96-98), then
`minisign -Vm <db>/qp_db-latest.tar.zst -P <key>`, the artifact verification
(main.go:89-90), has returned without error at an earlier position.  And a run in
which the manifest verification returned an error has no artifact download, a
run in which the artifact verification returned an error has no activation
call. -/
theorem order_invariant {σ : Type} (lib : GoLib) (env : Env) (w : World σ) (s : σ)
    (i : Nat) (e : Event) (he : (main lib env w s).trace[i]? = some e) :
    (e.isArtifactFetch = true →
      Event.run .verifyManifest
        ["minisign", "-Vm", lib.join (dbDir lib env) "manifest.json", "-P",
          env.getenv "QP_MINISIGN_PUBKEY"] none none ∈ (main lib env w s).trace.take i) ∧
    (e.isActivation = true →
      Event.run .verifyArtifact
        ["minisign", "-Vm", lib.join (dbDir lib env) "qp_db-latest.tar.zst", "-P",
          env.getenv "QP_MINISIGN_PUBKEY"] none none ∈ (main lib env w s).trace.take i) ∧
    ((∃ argv cenv msg,
        Event.run .verifyManifest argv cenv (some msg) ∈ (main lib env w s).trace) →
      e.isArtifactFetch = false) ∧
    ((∃ argv cenv msg,
        Event.run .verifyArtifact argv cenv (some msg) ∈ (main lib env w s).trace) →
      e.isActivation = false) := by
  obtain ⟨h1, h2⟩ := main_orderOK lib env w s
  have hargs := main_runsAsComputed lib env w s
  have hmem : e ∈ (main lib env w s).trace := List.getElem?_mem he
  obtain ⟨ha, hb⟩ := orderOK_sound _ false false h1 i e he
  simp only [failedStops, Bool.and_eq_true, Bool.or_eq_true, Bool.not_eq_true',
    List.any_eq_true, List.all_eq_true, List.any_eq_false] at h2
  obtain ⟨h3, h4⟩ := h2
  refine ⟨fun hf => ?_, fun hf => ?_, ?_, ?_⟩
  · rcases ha hf with hm | ⟨e', he', hok⟩
    · cases hm
    · obtain ⟨argv, cenv, rfl⟩ := ranOk_eq _ _ hok
      obtain ⟨rfl, rfl⟩ := (hargs _ argv cenv none (List.mem_of_mem_take he')).1 rfl
      exact he'
  · rcases hb hf with hm | ⟨e', he', hok⟩
    · cases hm
    · obtain ⟨argv, cenv, rfl⟩ := ranOk_eq _ _ hok
      obtain ⟨rfl, rfl⟩ := (hargs _ argv cenv none (List.mem_of_mem_take he')).2.1 rfl
      exact he'
  · rintro ⟨argv, cenv, msg, he'⟩
    rcases h3 with h3 | h3
    · exact absurd (h3 _ he') (by simp [Event.ranBad])
    · simpa using h3 e hmem
  · rintro ⟨argv, cenv, msg, he'⟩
    rcases h4 with h4 | h4
    · exact absurd (h4 _ he') (by simp [Event.ranBad])
    · simpa using h4 e hmem

/-- Witness of C1: in the run of the scenario of the specification the request
for the artifact is event 18, and the successful manifest verification is among
the events before it. -/
theorem order_invariant_witness :
    (main lib0 env0 (simWorld webGood none) Sim.init).trace[18]? =
        some (.httpGet .dlArtifact "https://example/db.tar.zst" ⟨200, 3⟩ none) ∧
      Event.run .verifyManifest
        ["minisign", "-Vm", lib0.join (dbDir lib0 env0) "manifest.json", "-P",
          env0.getenv "QP_MINISIGN_PUBKEY"] none none ∈
        (main lib0 env0 (simWorld webGood none) Sim.init).trace.take 18 :=
  ⟨by decide,
    (order_invariant lib0 env0 (simWorld webGood none) Sim.init 18
      (.httpGet .dlArtifact "https://example/db.tar.zst" ⟨200, 3⟩ none) (by decide)).1
      (by decide)⟩

/-- C6, counterexample.  On a web that answers every request with status 404 and
an error page, the response to the manifest request (event 1) does not end the
run: its body is read and decoded as the manifest (events 2 and 3), and the body
of the next response with status 404 (event 5) is written to `manifest.json` in
the local store (event 7). -/
theorem status_404_not_fatal :
    (main lib0 env0 (simWorld webEmpty none) Sim.init).trace[1]? =
        some (.httpGet .getManifest "https://cdn.example/manifest.json" ⟨404, 0⟩ none) ∧
      (main lib0 env0 (simWorld webEmpty none) Sim.init).trace[2]? =
        some (.readAll .getManifest 0 "404: Not Found" none) ∧
      (main lib0 env0 (simWorld webEmpty none) Sim.init).trace[3]? =
        some (.unmarshal "404: Not Found" Manifest.zero
          (some .malformed)) ∧
      (main lib0 env0 (simWorld webEmpty none) Sim.init).trace[5]? =
        some (.httpGet .dlManifest "https://cdn.example/manifest.json" ⟨404, 1⟩ none) ∧
      (main lib0 env0 (simWorld webEmpty none) Sim.init).trace[7]? =
        some (.copy .dlManifest "/home/u/.quietpatch/db/manifest.json" 1
          "404: Not Found" none) := by
  decide

/-- C6, as amended.  For every world and every event `e` at position `i` of the
trace of `main`: if `e` is a fetch action (`http.Get`, `io.ReadAll`, `os.Create`,
`io.Copy`) that returned an error, the rest of the trace is the diagnostic
`Error: <error>` on standard error and the exit status is 1; if `e` is an
`http.Get` that returned no error, then whatever the status code of the response
its body is used next: read as the manifest, or copied into the local file once
the file is created. -/
theorem fetch_error_fatal {σ : Type} (lib : GoLib) (env : Env) (w : World σ) (s : σ)
    (i : Nat) (e : Event) (he : (main lib env w s).trace[i]? = some e) :
    (∀ msg, e.fetchError = some msg →
      (main lib env w s).trace.drop (i + 1) = [.stderr ("Error: " ++ msg ++ "\n")] ∧
        (main lib env w s).exitCode = 1) ∧
    (∀ site url resp, e = .httpGet site url resp none →
      bodyUsed site resp ((main lib env w s).trace.drop (i + 1))) :=
  fetchFatal_sound _ _ (main_fetchFatal lib env w s) i e he

/-- Witness of C6 as amended: when the directory cannot be made, `os.Create`
fails at event 6, and the run ends there with the diagnostic and status 1. -/
theorem fetch_error_fatal_witness :
    (main lib0 env0 (simWorld webGood (some "mkdir /home/u/.quietpatch: permission denied"))
        Sim.init).trace[6]? =
      some (.create .dlManifest "/home/u/.quietpatch/db/manifest.json"
        (some "open /home/u/.quietpatch/db/manifest.json: no such file or directory")) ∧
    ((main lib0 env0 (simWorld webGood (some "mkdir /home/u/.quietpatch: permission denied"))
        Sim.init).trace.drop (6 + 1) =
      [.stderr ("Error: " ++
        "open /home/u/.quietpatch/db/manifest.json: no such file or directory" ++ "\n")] ∧
    (main lib0 env0 (simWorld webGood (some "mkdir /home/u/.quietpatch: permission denied"))
        Sim.init).exitCode = 1) :=
  ⟨by decide,
    (fetch_error_fatal lib0 env0
      (simWorld webGood (some "mkdir /home/u/.quietpatch: permission denied")) Sim.init 6
      (.create .dlManifest "/home/u/.quietpatch/db/manifest.json"
        (some "open /home/u/.quietpatch/db/manifest.json: no such file or directory"))
      (by decide)).1 _ rfl⟩

/-- C7 (signature URL composition).  For every world and every `http.Get` in the
trace of `main`: the request of the manifest signature (main.go:72) goes to the
manifest URL followed by `.minisig`, whatever the manifest says; the request of
the artifact signature (main.go:86) goes to `L ++ E` for the `latest = L` and
`signature_ext = E` of the decoded manifest. -/
theorem signature_url_composition {σ : Type} (lib : GoLib) (env : Env) (w : World σ) (s : σ)
    (site : Site) (url : String) (resp : Response) (err : GoError)
    (h : Event.httpGet site url resp err ∈ (main lib env w s).trace) :
    (site = .dlManifestSig → url = manifestURL env ++ ".minisig") ∧
    (site = .dlArtifactSig → ∀ data m uerr L E,
      Event.unmarshal data m uerr ∈ (main lib env w s).trace →
      m.Catalog.Latest = L → m.Catalog.SignatureExt = E → url = L ++ E) := by
  obtain ⟨-, -, h3, h4⟩ := main_urlsAsComputed lib env w s site url resp err h
  refine ⟨h3, ?_⟩
  intro hs data m uerr L E hm hL hE
  rw [← hL, ← hE]
  exact (h4 data m uerr hm).2 hs

/-- Witness of C7: the manifest with `latest = "https://x/db.tar.zst"` and
`signature_ext = ".sig"` makes the run request the artifact signature from
`"https://x/db.tar.zst.sig"`. -/
theorem signature_url_composition_witness :
    Event.httpGet .dlArtifactSig "https://x/db.tar.zst.sig" ⟨200, 4⟩ none ∈
        (main lib0 env0 (simWorld webSig none) Sim.init).trace ∧
      Event.unmarshal manifestSig
          ⟨⟨8, "2024-02-01", "https://x/db.tar.zst", ".sig", "1.0"⟩⟩ none ∈
        (main lib0 env0 (simWorld webSig none) Sim.init).trace ∧
      "https://x/db.tar.zst.sig" = "https://x/db.tar.zst" ++ ".sig" :=
  ⟨by decide, by decide,
    (signature_url_composition lib0 env0 (simWorld webSig none) Sim.init .dlArtifactSig
      "https://x/db.tar.zst.sig" ⟨200, 4⟩ none (by decide)).2 rfl manifestSig
      ⟨⟨8, "2024-02-01", "https://x/db.tar.zst", ".sig", "1.0"⟩⟩ none
      "https://x/db.tar.zst" ".sig" (by decide) rfl rfl⟩

/-- C9 (success report).  For every world, if no fetch action and no child
process of the run returned an error, the exit status is 0, and after the four
download notices standard output has the lines of the report: the epoch and the
snapshot date of the manifest decoded from the bytes `data` read at main.go:61,
and the directory `db`. -/
theorem success_report {σ : Type} (lib : GoLib) (env : Env) (w : World σ) (s : σ)
    (h : ∀ e ∈ (main lib env w s).trace, e.fetchError = none ∧ e.runError = none) :
    (main lib env w s).exitCode = 0 ∧
    ∃ b data, Event.readAll .getManifest b data none ∈ (main lib env w s).trace ∧
      Event.unmarshal data (unmarshal lib data Manifest.zero).1
        (unmarshal lib data Manifest.zero).2 ∈ (main lib env w s).trace ∧
      (stdoutOf (main lib env w s).trace).drop 4 =
        ["✅ Catalog updated successfully!\n",
         "   Epoch: " ++ toString (unmarshal lib data Manifest.zero).1.Catalog.Epoch ++ "\n",
         "   Date: " ++ (unmarshal lib data Manifest.zero).1.Catalog.SnapshotDate ++ "\n",
         "   Location: " ++ dbDir lib env ++ "\n"] := by
  obtain ⟨hc, mkErr, r0, r1, r2, r3, r4, body, d1, d2, d3, d4, ht⟩ :=
    main_succeedsAsTraced lib env w s (all_succeeded _ h)
  refine ⟨hc, r0.body, body, ?_, ?_, ?_⟩
  · rw [ht]; simp [successTrace]
  · rw [ht]; simp [successTrace]
  · rw [ht]; rfl

/-- Witness of C9: the scenario of the specification.  For the manifest with
epoch 7 and snapshot date 2024-01-01 and a web on which both signatures are
valid, the run exits 0 and reports 7, 2024-01-01 and the store path. -/
theorem success_report_witness :
    (∀ e ∈ (main lib0 env0 (simWorld webGood none) Sim.init).trace,
        e.fetchError = none ∧ e.runError = none) ∧
      (main lib0 env0 (simWorld webGood none) Sim.init).exitCode = 0 ∧
      (stdoutOf (main lib0 env0 (simWorld webGood none) Sim.init).trace).drop 4 =
        ["✅ Catalog updated successfully!\n", "   Epoch: 7\n", "   Date: 2024-01-01\n",
         "   Location: /home/u/.quietpatch/db\n"] :=
  ⟨by decide, (success_report lib0 env0 (simWorld webGood none) Sim.init (by decide)).1,
    by decide⟩

/-! ## The JSON scanner: the fuel is enough -/

theorem skipSpace_length (cs : List Char) : (skipSpace cs).length ≤ cs.length := by
  induction cs with
  | nil => simp [skipSpace]
  | cons c cs ih =>
    simp only [skipSpace]
    split
    · simp only [List.length_cons]; omega
    · simp

theorem scanString_length : ∀ (n : Nat) (cs : List Char), cs.length ≤ n →
    ∀ us out, scanString cs = some (us, out) → out.length < cs.length := by
  intro n
  induction n with
  | zero =>
    intro cs hn us out h
    have : cs = [] := List.length_eq_zero.1 (Nat.le_zero.1 hn)
    subst this
    simp [scanString] at h
  | succ n ih =>
    intro cs hn us out h
    cases cs with
    | nil => simp [scanString] at h
    | cons c rest =>
      unfold scanString at h
      repeat' split at h
      all_goals first
        | (simp at h; done)
        | (simp only [Option.some.injEq, Prod.mk.injEq] at h
           obtain ⟨-, rfl⟩ := h
           simp only [List.length_cons] at hn ⊢
           first
             | omega
             | (have hs := ‹scanString _ = some _›
                have hrec := ih _ (by omega) _ _ hs
                simp only [List.length_cons] at hrec ⊢
                omega))

theorem quoted_length (cs : List Char) (s : String) (out : List Char)
    (h : quoted cs = some (s, out)) : out.length < cs.length := by
  unfold quoted at h
  split at h
  · simp at h
  · next us out' hs =>
    simp only [Option.some.injEq, Prod.mk.injEq] at h
    rw [← h.2]
    exact scanString_length _ cs (Nat.le_refl _) us out' hs

theorem spanDigits_length (cs : List Char) : (spanDigits cs).2.length ≤ cs.length := by
  induction cs with
  | nil => simp [spanDigits]
  | cons c cs ih =>
    simp only [spanDigits]
    split
    · simp only [List.length_cons]; omega
    · simp

theorem scanInt_length (cs i out : List Char) (h : scanInt cs = some (i, out)) :
    out.length < cs.length := by
  cases cs with
  | nil => simp [scanInt] at h
  | cons c rest =>
    have := spanDigits_length rest
    simp only [scanInt] at h
    by_cases h0 : (c == '0') = true
    · simp only [h0, if_true, Option.some.injEq, Prod.mk.injEq] at h
      rw [← h.2]; simp
    · by_cases hd : isDigit c = true
      · simp only [h0, hd, if_true, Bool.false_eq_true, if_false, Option.some.injEq, Prod.mk.injEq] at h
        rw [← h.2]; simp only [List.length_cons]; omega
      · simp [h0, hd] at h

theorem scanFrac_length (cs f out : List Char) (h : scanFrac cs = some (f, out)) :
    out.length ≤ cs.length := by
  cases cs with
  | nil =>
    simp only [scanFrac, Option.some.injEq, Prod.mk.injEq] at h
    rw [← h.2]
  | cons c rest =>
    have := spanDigits_length rest
    simp only [scanFrac] at h
    by_cases hc : (c == '.') = true
    · simp only [hc, if_true] at h
      rcases hsp : spanDigits rest with ⟨ds, out'⟩
      rw [hsp] at h this
      cases ds with
      | nil => simp at h
      | cons d ds =>
        simp only [Option.some.injEq, Prod.mk.injEq] at h
        rw [← h.2]; simp only [List.length_cons]; simp only at this; omega
    · simp only [hc, Bool.false_eq_true, if_false, Option.some.injEq, Prod.mk.injEq] at h
      rw [← h.2]

theorem scanExp_length (cs e out : List Char) (h : scanExp cs = some (e, out)) :
    out.length ≤ cs.length := by
  cases cs with
  | nil =>
    simp only [scanExp, Option.some.injEq, Prod.mk.injEq] at h
    rw [← h.2]
  | cons c rest =>
    simp only [scanExp] at h
    by_cases hc : (c == 'e' || c == 'E') = true
    · simp only [hc, if_true] at h
      cases rest with
      | nil => simp at h
      | cons s rest1 =>
        have h1 := spanDigits_length rest1
        have h2 := spanDigits_length (s :: rest1)
        simp only at h
        by_cases hs : (s == '+' || s == '-') = true
        · simp only [hs, if_true] at h
          rcases hsp : spanDigits rest1 with ⟨ds, out'⟩
          rw [hsp] at h h1
          cases ds with
          | nil => simp at h
          | cons d ds =>
            simp only [Option.some.injEq, Prod.mk.injEq] at h
            rw [← h.2]; simp only [List.length_cons]; simp only at h1; omega
        · simp only [hs, Bool.false_eq_true, if_false] at h
          rcases hsp : spanDigits (s :: rest1) with ⟨ds, out'⟩
          rw [hsp] at h h2
          cases ds with
          | nil => simp at h
          | cons d ds =>
            simp only [Option.some.injEq, Prod.mk.injEq] at h
            rw [← h.2]; simp only [List.length_cons] at h2 ⊢; omega
    · simp only [hc, Bool.false_eq_true, if_false, Option.some.injEq, Prod.mk.injEq] at h
      rw [← h.2]

theorem scanUnsigned_length (sign cs : List Char) (s : String) (out : List Char)
    (h : scanUnsigned sign cs = some (s, out)) : out.length < cs.length := by
  simp only [scanUnsigned] at h
  rcases hi : scanInt cs with _ | ⟨i, cs2⟩
  · simp [hi] at h
  · have h2 := scanInt_length _ _ _ hi
    simp only [hi] at h
    rcases hf : scanFrac cs2 with _ | ⟨f, cs3⟩
    · simp [hf] at h
    · have h3 := scanFrac_length _ _ _ hf
      simp only [hf] at h
      rcases he : scanExp cs3 with _ | ⟨e, cs4⟩
      · simp [he] at h
      · have h4 := scanExp_length _ _ _ he
        simp only [he, Option.some.injEq, Prod.mk.injEq] at h
        rw [← h.2]; omega

theorem scanNumber_length (cs : List Char) (s : String) (out : List Char)
    (h : scanNumber cs = some (s, out)) : out.length < cs.length := by
  cases cs with
  | nil => simp [scanNumber] at h
  | cons c rest =>
    simp only [scanNumber] at h
    split at h
    · have := scanUnsigned_length _ _ _ _ h
      simp only [List.length_cons]; omega
    · exact scanUnsigned_length _ _ _ _ h

theorem dropLit_length (lit cs out : List Char) (h : dropLit lit cs = some out) :
    out.length ≤ cs.length := by
  unfold dropLit at h
  split at h
  · simp only [Option.some.injEq] at h
    rw [← h]; simp
  · simp at h

theorem scan_fuel (n : Nat) :
    (∀ dp cs r, scanValue n dp cs = some r →
      r.2.length < cs.length ∧
        ∀ m, cs.length - r.2.length ≤ m → scanValue m dp cs = some r) ∧
    (∀ dp cs r, scanElems n dp cs = some r →
      r.2.length < cs.length ∧
        ∀ m, cs.length - r.2.length ≤ m → scanElems m dp cs = some r) ∧
    (∀ dp cs r, scanMembers n dp cs = some r →
      r.2.length < cs.length ∧
        ∀ m, cs.length - r.2.length ≤ m → scanMembers m dp cs = some r) := by
  induction n with
  | zero =>
    refine ⟨?_, ?_, ?_⟩ <;> intro dp cs r h <;>
      simp [scanValue, scanElems, scanMembers] at h
  | succ f ih =>
    obtain ⟨ihV, ihE, ihM⟩ := ih
    refine ⟨?_, ?_, ?_⟩
    · intro dp cs r h
      cases cs with
      | nil => simp [scanValue] at h
      | cons c rest =>
        simp only [scanValue] at h
        by_cases h1 : (c == '\x7b') = true
        · simp only [h1, if_true] at h
          by_cases hdp : maxNestingDepth ≤ dp
          · simp [hdp] at h
          · simp only [hdp, if_false] at h
            have hsl := skipSpace_length rest
            rcases hsk : skipSpace rest with _ | ⟨d, rest1⟩
            · simp [hsk] at h
            · simp only [hsk] at h hsl
              by_cases h2 : (d == '\x7d') = true
              · simp only [h2, if_true, Option.some.injEq] at h
                subst h
                simp only [List.length_cons] at hsl ⊢
                refine ⟨by omega, fun m hm => ?_⟩
                obtain ⟨m', rfl⟩ : ∃ m', m = m' + 1 := ⟨m - 1, by omega⟩
                simp only [scanValue, h1, if_true, hdp, if_false, hsk, h2]
              · simp only [h2, Bool.false_eq_true, if_false] at h
                rcases hrec : scanMembers f (dp + 1) (d :: rest1) with _ | ⟨ms, out⟩
                · simp [hrec] at h
                · simp only [hrec, Option.some.injEq] at h
                  subst h
                  obtain ⟨hl, hfuel⟩ := ihM _ _ _ hrec
                  simp only [List.length_cons] at hsl hl hfuel ⊢
                  refine ⟨by omega, fun m hm => ?_⟩
                  obtain ⟨m', rfl⟩ : ∃ m', m = m' + 1 := ⟨m - 1, by omega⟩
                  simp only [scanValue, h1, if_true, hdp, hsk, h2, Bool.false_eq_true,
                    if_false, hfuel m' (by omega)]
        · simp only [h1, Bool.false_eq_true, if_false] at h
          by_cases h3 : (c == '[') = true
          · simp only [h3, if_true] at h
            by_cases hdp : maxNestingDepth ≤ dp
            · simp [hdp] at h
            · simp only [hdp, if_false] at h
              have hsl := skipSpace_length rest
              rcases hsk : skipSpace rest with _ | ⟨d, rest1⟩
              · simp [hsk] at h
              · simp only [hsk] at h hsl
                by_cases h2 : (d == ']') = true
                · simp only [h2, if_true, Option.some.injEq] at h
                  subst h
                  simp only [List.length_cons] at hsl ⊢
                  refine ⟨by omega, fun m hm => ?_⟩
                  obtain ⟨m', rfl⟩ : ∃ m', m = m' + 1 := ⟨m - 1, by omega⟩
                  simp only [scanValue, h1, h3, Bool.false_eq_true, if_false, if_true, hdp,
                    hsk, h2]
                · simp only [h2, Bool.false_eq_true, if_false] at h
                  rcases hrec : scanElems f (dp + 1) (d :: rest1) with _ | ⟨es, out⟩
                  · simp [hrec] at h
                  · simp only [hrec, Option.some.injEq] at h
                    subst h
                    obtain ⟨hl, hfuel⟩ := ihE _ _ _ hrec
                    simp only [List.length_cons] at hsl hl hfuel ⊢
                    refine ⟨by omega, fun m hm => ?_⟩
                    obtain ⟨m', rfl⟩ : ∃ m', m = m' + 1 := ⟨m - 1, by omega⟩
                    simp only [scanValue, h1, h3, if_true, hdp, hsk, h2, Bool.false_eq_true,
                      if_false, hfuel m' (by omega)]
          · simp only [h3, Bool.false_eq_true, if_false] at h
            have hrest : r.2.length < (c :: rest).length := by
              by_cases h4 : (c == '\x22') = true
              · simp only [h4, if_true] at h
                rcases hq : quoted rest with _ | ⟨s, out⟩
                · simp [hq] at h
                · simp only [hq, Option.some.injEq] at h
                  subst h
                  have := quoted_length _ _ _ hq
                  simp only [List.length_cons]; omega
              · simp only [h4, Bool.false_eq_true, if_false] at h
                by_cases h5 : (c == 't') = true
                · simp only [h5, if_true, Option.map_eq_some'] at h
                  obtain ⟨out, hd, rfl⟩ := h
                  have := dropLit_length _ _ _ hd
                  simp only [List.length_cons]; omega
                · simp only [h5, Bool.false_eq_true, if_false] at h
                  by_cases h6 : (c == 'f') = true
                  · simp only [h6, if_true, Option.map_eq_some'] at h
                    obtain ⟨out, hd, rfl⟩ := h
                    have := dropLit_length _ _ _ hd
                    simp only [List.length_cons]; omega
                  · simp only [h6, Bool.false_eq_true, if_false] at h
                    by_cases h7 : (c == 'n') = true
                    · simp only [h7, if_true, Option.map_eq_some'] at h
                      obtain ⟨out, hd, rfl⟩ := h
                      have := dropLit_length _ _ _ hd
                      simp only [List.length_cons]; omega
                    · simp only [h7, Bool.false_eq_true, if_false, Option.map_eq_some'] at h
                      obtain ⟨⟨s, out⟩, hd, rfl⟩ := h
                      exact scanNumber_length _ _ _ hd
            refine ⟨hrest, fun m hm => ?_⟩
            obtain ⟨m', rfl⟩ : ∃ m', m = m' + 1 := ⟨m - 1, by omega⟩
            simp only [scanValue, h1, h3, Bool.false_eq_true, if_false]
            exact h
    · intro dp cs r h
      simp only [scanElems] at h
      rcases hv : scanValue f dp cs with _ | ⟨v, out⟩
      · simp [hv] at h
      · simp only [hv] at h
        obtain ⟨hl, hfuel⟩ := ihV _ _ _ hv
        have hsl := skipSpace_length out
        rcases hsk : skipSpace out with _ | ⟨d, rest⟩
        · simp [hsk] at h
        · simp only [hsk] at h hsl
          by_cases h2 : (d == ']') = true
          · simp only [h2, if_true, Option.some.injEq] at h
            subst h
            simp only [List.length_cons] at hsl hl hfuel ⊢
            refine ⟨by omega, fun m hm => ?_⟩
            obtain ⟨m', rfl⟩ : ∃ m', m = m' + 1 := ⟨m - 1, by omega⟩
            simp only [scanElems, hfuel m' (by omega), hsk, h2, if_true]
          · simp only [h2, Bool.false_eq_true, if_false] at h
            by_cases h3 : (d == ',') = true
            · simp only [h3, if_true] at h
              have hsl2 := skipSpace_length rest
              rcases hrec : scanElems f dp (skipSpace rest) with _ | ⟨vs, out1⟩
              · simp [hrec] at h
              · simp only [hrec, Option.some.injEq] at h
                subst h
                obtain ⟨hl2, hfuel2⟩ := ihE _ _ _ hrec
                simp only [List.length_cons] at hsl hl hfuel hl2 hfuel2 ⊢
                refine ⟨by omega, fun m hm => ?_⟩
                obtain ⟨m', rfl⟩ : ∃ m', m = m' + 1 := ⟨m - 1, by omega⟩
                simp only [scanElems, hfuel m' (by omega), hsk, h2, h3, if_true,
                  Bool.false_eq_true, if_false, hfuel2 m' (by omega)]
            · simp [h3] at h
    · intro dp cs r h
      cases cs with
      | nil => simp [scanMembers] at h
      | cons q rest =>
        simp only [scanMembers] at h
        by_cases h1 : (q == '\x22') = true
        · simp only [h1, if_true] at h
          rcases hq : quoted rest with _ | ⟨k, out⟩
          · simp [hq] at h
          · simp only [hq] at h
            have hql := quoted_length _ _ _ hq
            have hsl := skipSpace_length out
            rcases hsk : skipSpace out with _ | ⟨col, rest1⟩
            · simp [hsk] at h
            · simp only [hsk] at h hsl
              by_cases h2 : (col == ':') = true
              · simp only [h2, if_true] at h
                have hsl1 := skipSpace_length rest1
                rcases hv : scanValue f dp (skipSpace rest1) with _ | ⟨v, out1⟩
                · simp [hv] at h
                · simp only [hv] at h
                  obtain ⟨hl, hfuel⟩ := ihV _ _ _ hv
                  have hsl2 := skipSpace_length out1
                  rcases hsk2 : skipSpace out1 with _ | ⟨d, rest2⟩
                  · simp [hsk2] at h
                  · simp only [hsk2] at h hsl2
                    by_cases h3 : (d == '\x7d') = true
                    · simp only [h3, if_true, Option.some.injEq] at h
                      subst h
                      simp only [List.length_cons] at hsl hsl2 hl hfuel ⊢
                      refine ⟨by omega, fun m hm => ?_⟩
                      obtain ⟨m', rfl⟩ : ∃ m', m = m' + 1 := ⟨m - 1, by omega⟩
                      simp only [scanMembers, h1, if_true, hq, hsk, h2, hfuel m' (by omega),
                        hsk2, h3]
                    · simp only [h3, Bool.false_eq_true, if_false] at h
                      by_cases h4 : (d == ',') = true
                      · simp only [h4, if_true] at h
                        have hsl3 := skipSpace_length rest2
                        rcases hrec : scanMembers f dp (skipSpace rest2) with _ | ⟨ms, out2⟩
                        · simp [hrec] at h
                        · simp only [hrec, Option.some.injEq] at h
                          subst h
                          obtain ⟨hl2, hfuel2⟩ := ihM _ _ _ hrec
                          simp only [List.length_cons] at hsl hsl2 hl hfuel hl2 hfuel2 ⊢
                          refine ⟨by omega, fun m hm => ?_⟩
                          obtain ⟨m', rfl⟩ : ∃ m', m = m' + 1 := ⟨m - 1, by omega⟩
                          simp only [scanMembers, h1, if_true, hq, hsk, h2,
                            hfuel m' (by omega), hsk2, h3, h4, Bool.false_eq_true, if_false,
                            hfuel2 m' (by omega)]
                      · simp [h4] at h
              · simp [h2] at h
        · simp [h1] at h

/-- The fuel that `parseJSON` gives the scanner is enough: a text that the
scanner accepts as one value with some fuel is accepted by `parseJSON`, with the
same value. -/
theorem parseJSON_of_scanValue (n : Nat) (data : String) (v : JSON) (out : List Char)
    (h : scanValue n 0 (skipSpace data.toList) = some (v, out)) (hout : skipSpace out = []) :
    parseJSON data = some v := by
  obtain ⟨hl, hfuel⟩ := (scan_fuel n).1 _ _ _ h
  have hsl := skipSpace_length data.toList
  have hlen : data.length = data.toList.length := rfl
  simp only [parseJSON, hfuel (data.length + 1) (by omega), hout, if_true]

/-! ## Decoding: unknown fields -/

theorem setCatalogField_unknown (lib : GoLib) (acc : ManifestCatalog × Bool) (k : String)
    (u : JSON) (h : findField lib catalogFields k = none) :
    setCatalogField lib acc (k, u) = acc := by
  simp only [setCatalogField, h]

theorem setManifestField_unknown (lib : GoLib) (acc : Manifest × Bool) (k : String)
    (u : JSON) (h : findField lib manifestFields k = none) :
    setManifestField lib acc (k, u) = acc := by
  simp only [setManifestField, h]

theorem foldl_setCatalogField_addsUnknown (lib : GoLib) (ms ms' : List (String × JSON))
    (h : AddsUnknown lib catalogFields (fun a b => b = a) ms ms') :
    ∀ acc, ms'.foldl (setCatalogField lib) acc = ms.foldl (setCatalogField lib) acc := by
  induction h with
  | nil => intro acc; rfl
  | keep k v v' ms ms' hsub _ ih =>
    intro acc
    have hv : v' = v := hsub
    subst hv
    simp only [List.foldl_cons]
    exact ih _
  | add k u ms ms' hk _ ih =>
    intro acc
    simp only [List.foldl_cons, setCatalogField_unknown lib acc k u hk]
    exact ih _

theorem decodeCatalog_addsUnknown (lib : GoLib) (cur : ManifestCatalog) (v v' : JSON)
    (h : AddsUnknownCatalog lib v v') : decodeCatalog lib cur v' = decodeCatalog lib cur v := by
  rcases h with h | ⟨cs, cs', hv, hv', hadd⟩
  · rw [h]
  · subst hv; subst hv'
    simp only [decodeCatalog]
    exact foldl_setCatalogField_addsUnknown lib cs cs' hadd _

theorem foldl_setManifestField_addsUnknown (lib : GoLib) (ms ms' : List (String × JSON))
    (h : AddsUnknown lib manifestFields (AddsUnknownCatalog lib) ms ms') :
    ∀ acc, ms'.foldl (setManifestField lib) acc = ms.foldl (setManifestField lib) acc := by
  induction h with
  | nil => intro acc; rfl
  | keep k v v' ms ms' hsub _ ih =>
    intro acc
    have hstep : setManifestField lib acc (k, v') = setManifestField lib acc (k, v) := by
      simp only [setManifestField, decodeCatalog_addsUnknown lib _ v v' hsub]
    simp only [List.foldl_cons, hstep]
    exact ih _
  | add k u ms ms' hk _ ih =>
    intro acc
    simp only [List.foldl_cons, setManifestField_unknown lib acc k u hk]
    exact ih _

theorem unmarshal_addsUnknown (lib : GoLib) (p p' : String) (v v' : JSON)
    (hp : parseJSON p = some v) (hp' : parseJSON p' = some v')
    (hadd : AddsUnknownManifest lib v v') (m : Manifest) :
    unmarshal lib p' m = unmarshal lib p m := by
  obtain ⟨ms, ms', hv, hv', h⟩ := hadd
  subst hv; subst hv'
  simp only [unmarshal, hp, hp', decodeManifest,
    foldl_setManifestField_addsUnknown lib ms ms' h]

/-! ## Decoding: the nesting limit -/

/-- Arrays opened one inside the other beyond the nesting limit are rejected,
whatever follows and whatever the fuel. -/
theorem scanValue_tooDeep (n : Nat) :
    ∀ fuel dp rest, 0 < n → maxNestingDepth < dp + n →
      scanValue fuel dp (List.replicate n '[' ++ rest) = none := by
  induction n with
  | zero => intro _ _ _ h; omega
  | succ k ih =>
    intro fuel dp rest _ hd
    cases fuel with
    | zero => rfl
    | succ f =>
      have h1 : ('[' == '\x7b') = false := by decide
      have h2 : ('[' == '[') = true := by decide
      simp only [List.replicate_succ, List.cons_append, scanValue, h1, h2,
        Bool.false_eq_true, if_false, if_true]
      by_cases hdp : maxNestingDepth ≤ dp
      · simp only [hdp, if_true]
      · simp only [hdp, if_false]
        cases k with
        | zero => omega
        | succ j =>
          have h3 : isSpace '[' = false := by decide
          have h4 : ('[' == ']') = false := by decide
          simp only [List.replicate_succ, List.cons_append, skipSpace, h3, h4,
            Bool.false_eq_true, if_false]
          cases f with
          | zero => rfl
          | succ g =>
            have := ih g (dp + 1) rest (by omega) (by omega)
            simp only [List.replicate_succ, List.cons_append] at this
            simp only [scanElems, List.append_eq, this]

/-- One plain character of a string literal. -/
theorem scanString_plain (c : Char) (rest : List Char) (h1 : (c == '\x22') = false)
    (h2 : (c == '\x5c') = false) (h3 : ¬ c.toNat < 32) :
    scanString (c :: rest) =
      match scanString rest with
      | none => none
      | some (us, out) => some (c.toNat :: us, out) := by
  rw [scanString.eq_def]
  simp only [h1, h2, h3, Bool.false_eq_true, if_false]

/-- The closing quote of a string literal. -/
theorem scanString_quote (rest : List Char) : scanString ('\x22' :: rest) = some ([], rest) := by
  rw [scanString.eq_def]
  rfl

/-- The key `build`. -/
theorem quoted_build (rest : List Char) :
    quoted ('b' :: 'u' :: 'i' :: 'l' :: 'd' :: '\x22' :: rest) = some ("build", rest) := by
  simp only [quoted, scanString_plain _ _ (by decide : ('b' == '\x22') = false) (by decide) (by decide),
    scanString_plain _ _ (by decide : ('u' == '\x22') = false) (by decide) (by decide),
    scanString_plain _ _ (by decide : ('i' == '\x22') = false) (by decide) (by decide),
    scanString_plain _ _ (by decide : ('l' == '\x22') = false) (by decide) (by decide),
    scanString_plain _ _ (by decide : ('d' == '\x22') = false) (by decide) (by decide),
    scanString_quote]
  rfl

/-- The manifest with the field `build` added is not accepted as JSON when the
value of `build` is nested `maxNestingDepth` arrays deep or deeper: with the
object around it the nesting exceeds the limit. -/
theorem parseJSON_manifestNested_tooDeep (n : Nat) (h : maxNestingDepth ≤ n) :
    parseJSON (manifestNested n) = none := by
  have hmax : maxNestingDepth = 10000 := rfl
  obtain ⟨k, rfl⟩ : ∃ k, n = k + 1 := ⟨n - 1, by omega⟩
  have hdeep : ∀ fuel rest, scanValue fuel 1 ('[' :: (List.replicate k '[' ++ rest)) = none :=
    fun fuel rest => scanValue_tooDeep (k + 1) fuel 1 rest (by omega) (by omega)
  have key : ∀ fuel rest, scanValue fuel 0
      ('\x7b' :: '\x22' :: 'b' :: 'u' :: 'i' :: 'l' :: 'd' :: '\x22' :: ':' ::
        '[' :: (List.replicate k '[' ++ rest)) = none := by
    intro fuel rest
    cases fuel with
    | zero => rfl
    | succ f =>
      cases f with
      | zero => rfl
      | succ g =>
        have h0 : ¬ maxNestingDepth ≤ 0 := by omega
        have c1 : ('\x7b' == '\x7b') = true := by decide
        have c2 : isSpace '\x22' = false := by decide
        have c3 : ('\x22' == '\x7d') = false := by decide
        have c4 : ('\x22' == '\x22') = true := by decide
        have c5 : isSpace ':' = false := by decide
        have c6 : (':' == ':') = true := by decide
        have c7 : isSpace '[' = false := by decide
        simp only [scanValue, scanMembers, skipSpace, quoted_build, hdeep, h0, c1, c2, c3, c4,
          c5, c6, c7, Bool.false_eq_true, if_false, if_true]
  have hlist : (manifestNested (k + 1)).toList =
      '\x7b' :: '\x22' :: 'b' :: 'u' :: 'i' :: 'l' :: 'd' :: '\x22' :: ':' ::
        '[' :: (List.replicate k '[' ++
          (List.replicate (k + 1) ']' ++ ',' :: manifestGood.toList.tail)) := by
    simp only [manifestNested, nestedArrays, List.replicate_succ, List.cons_append,
      List.append_assoc]
    rfl
  have c0 : isSpace '\x7b' = false := by decide
  rw [parseJSON, hlist]
  simp only [skipSpace, c0, Bool.false_eq_true, if_false, key]

/-- Moving one element of a run behind it. -/
theorem replicate_succ_append (n : Nat) (a : Char) (l : List Char) :
    List.replicate (n + 1) a ++ l = List.replicate n a ++ a :: l := by
  rw [List.replicate_succ', List.append_assoc]
  rfl

/-- Arrays opened one inside the other within the nesting limit are scanned as
one value, with fuel for two steps per array. -/
theorem scanValue_nested (k : Nat) :
    ∀ dp rest, dp + k < maxNestingDepth →
      ∃ v, ∀ fuel, 2 * k + 1 ≤ fuel →
        scanValue fuel dp
          (List.replicate (k + 1) '[' ++ (List.replicate (k + 1) ']' ++ rest)) = some (v, rest) := by
  have h1 : ('[' == '\x7b') = false := by decide
  have h2 : ('[' == '[') = true := by decide
  have h3 : isSpace ']' = false := by decide
  have h4 : (']' == ']') = true := by decide
  have h5 : isSpace '[' = false := by decide
  have h6 : ('[' == ']') = false := by decide
  induction k with
  | zero =>
    intro dp rest hdp
    refine ⟨.arr [], fun fuel hf => ?_⟩
    obtain ⟨f, rfl⟩ : ∃ f, fuel = f + 1 := ⟨fuel - 1, by omega⟩
    have hd : ¬ maxNestingDepth ≤ dp := by omega
    simp only [List.replicate_succ, List.replicate_zero, List.cons_append, List.nil_append,
      scanValue, skipSpace, h1, h2, h3, h4, hd, Bool.false_eq_true, if_false, if_true]
  | succ j ih =>
    intro dp rest hdp
    obtain ⟨v, hv⟩ := ih (dp + 1) (']' :: rest) (by omega)
    refine ⟨.arr [v], fun fuel hf => ?_⟩
    obtain ⟨f, rfl⟩ : ∃ f, fuel = f + 2 := ⟨fuel - 2, by omega⟩
    have hd : ¬ maxNestingDepth ≤ dp := by omega
    have hv' := hv f (by omega)
    rw [replicate_succ_append (j + 1) ']' rest]
    rw [List.replicate_succ (n := j + 1), List.cons_append]
    rw [List.replicate_succ, List.cons_append] at hv' ⊢
    simp only [scanValue, scanElems, skipSpace, hv', h1, h2, h3, h4, h5, h6, hd,
      Bool.false_eq_true, if_false, if_true]

/-- The members of the manifest of the scenario. -/
theorem scanMembers_manifestGood_tail :
    scanMembers 200 1 (skipSpace manifestGood.toList.tail) =
      some ([("catalog", .obj [("epoch", .num "7"), ("snapshot_date", .str "2024-01-01"),
        ("latest", .str "https://example/db.tar.zst"), ("signature_ext", .str ".minisig"),
        ("min_client", .str "1.0")])], []) := rfl

/-- The manifest with the field `build` added is accepted as JSON when the value
of `build` is nested less than `maxNestingDepth` arrays deep, and is the
manifest of the scenario with the member `build` in front. -/
theorem parseJSON_manifestNested (n : Nat) (h0 : 0 < n) (h : n < maxNestingDepth) :
    ∃ v, parseJSON (manifestNested n) =
      some (.obj [("build", v),
        ("catalog", .obj [("epoch", .num "7"), ("snapshot_date", .str "2024-01-01"),
          ("latest", .str "https://example/db.tar.zst"), ("signature_ext", .str ".minisig"),
          ("min_client", .str "1.0")])]) := by
  obtain ⟨k, rfl⟩ : ∃ k, n = k + 1 := ⟨n - 1, by omega⟩
  obtain ⟨v, hv⟩ := scanValue_nested k 1 (',' :: manifestGood.toList.tail) (by omega)
  refine ⟨v, ?_⟩
  have htail := (scan_fuel 200).2.2 _ _ _ scanMembers_manifestGood_tail
  have hlen : (skipSpace manifestGood.toList.tail).length ≤ manifestGood.toList.tail.length :=
    skipSpace_length _
  have hlist : (manifestNested (k + 1)).toList =
      '\x7b' :: '\x22' :: 'b' :: 'u' :: 'i' :: 'l' :: 'd' :: '\x22' :: ':' ::
        '[' :: (List.replicate k '[' ++
          (List.replicate (k + 1) ']' ++ ',' :: manifestGood.toList.tail)) := by
    simp only [manifestNested, nestedArrays, List.replicate_succ, List.cons_append,
      List.append_assoc]
    rfl
  have hfuel : (manifestNested (k + 1)).length = 2 * k + 12 + manifestGood.toList.tail.length := by
    have hl : (manifestNested (k + 1)).length = (manifestNested (k + 1)).toList.length := rfl
    rw [hl, hlist]
    simp only [List.length_cons, List.length_append, List.length_replicate]
    omega
  have c0 : isSpace '\x7b' = false := by decide
  have h0 : ¬ maxNestingDepth ≤ 0 := by decide
  have c1 : ('\x7b' == '\x7b') = true := by decide
  have c2 : isSpace '\x22' = false := by decide
  have c3 : ('\x22' == '\x7d') = false := by decide
  have c4 : ('\x22' == '\x22') = true := by decide
  have c5 : isSpace ':' = false := by decide
  have c6 : (':' == ':') = true := by decide
  have c7 : isSpace '[' = false := by decide
  have c8 : isSpace ',' = false := by decide
  have c9 : (',' == '\x7d') = false := by decide
  have c10 : (',' == ',') = true := by decide
  obtain ⟨g, hg⟩ : ∃ g, (manifestNested (k + 1)).length + 1 = g + 2 := ⟨_, by rw [hfuel]; rfl⟩
  have hv' := hv g (by omega)
  rw [List.replicate_succ, List.cons_append] at hv'
  have htail' := htail.2 g (by simp only [List.length_nil] at *; omega)
  rw [parseJSON, hlist, hg]
  clear hlist hfuel hg hlen htail hv
  generalize manifestGood.toList.tail = tl at hv' htail' ⊢
  simp only [scanValue, scanMembers, skipSpace, quoted_build, hv', htail', h0, c0, c1, c2, c3,
    c4, c5, c6, c7, c8, c9, c10, Bool.false_eq_true, if_false, if_true]

/-- Decoding the manifest with the field `build` added: below the nesting limit
the field is ignored, from the limit on the text is rejected and the target is
left as it was. -/
theorem unmarshal_manifestNested (n : Nat) (h0 : 0 < n) :
    unmarshal lib0 (manifestNested n) Manifest.zero =
      if n < maxNestingDepth then unmarshal lib0 manifestGood Manifest.zero
      else (Manifest.zero, some JsonError.malformed) := by
  by_cases h : n < maxNestingDepth
  · obtain ⟨v, hv⟩ := parseJSON_manifestNested n h0 h
    have hgood : parseJSON manifestGood =
        some (.obj [("catalog", .obj [("epoch", .num "7"), ("snapshot_date", .str "2024-01-01"),
          ("latest", .str "https://example/db.tar.zst"), ("signature_ext", .str ".minisig"),
          ("min_client", .str "1.0")])]) := rfl
    have hb : findField lib0 manifestFields "build" = none := by decide
    simp only [h, if_true, unmarshal, hv, hgood, decodeManifest, List.foldl_cons,
      setManifestField_unknown lib0 _ "build" v hb]
  · simp only [h, if_false, unmarshal, parseJSON_manifestNested_tooDeep n (by omega)]

/-! ## Lenient decode -/

/-- C8, counterexample.  The manifest of the scenario decodes without error, with
epoch 7.  (a) With the member `"EPOCH":9` added at the end of the catalog object,
a name that is not among the recognized field names, the payload decodes without
error and the epoch is 9: `encoding/json` matches keys to fields
case-insensitively.  (b) With the field `build` added at top level, a name that
is not recognized either, the field is ignored when its value is 9999 arrays one
inside the other, and with 10000 arrays `json.Unmarshal` returns a syntax error
(nesting deeper than 10000) and leaves the `Manifest` zero. -/
theorem added_field_not_ignored :
    (unmarshal lib0 manifestGood Manifest.zero).2 = none ∧
    (unmarshal lib0 manifestGood Manifest.zero).1.Catalog.Epoch = 7 ∧
    "EPOCH" ∉ catalogFields ∧
    parseJSON manifestUpper =
      some (.obj [("catalog", .obj [("epoch", .num "7"), ("snapshot_date", .str "2024-01-01"),
        ("latest", .str "https://example/db.tar.zst"), ("signature_ext", .str ".minisig"),
        ("min_client", .str "1.0"), ("EPOCH", .num "9")])]) ∧
    (unmarshal lib0 manifestUpper Manifest.zero).2 = none ∧
    (unmarshal lib0 manifestUpper Manifest.zero).1.Catalog.Epoch = 9 ∧
    "build" ∉ manifestFields ∧
    unmarshal lib0 (manifestNested 9999) Manifest.zero =
      unmarshal lib0 manifestGood Manifest.zero ∧
    unmarshal lib0 (manifestNested 10000) Manifest.zero =
      (Manifest.zero, some JsonError.malformed) :=
  ⟨by decide, by decide, by decide, rfl, by decide, by decide, by decide,
    unmarshal_manifestNested 9999 (by decide), unmarshal_manifestNested 10000 (by decide)⟩

/-- C8, as amended (lenient decode).  Let the payloads `p` and `p'` be JSON texts
that the decoder accepts (well-formed, nested no deeper than 10000 levels), `p'`
being `p` with members added, at top level or inside a catalog object, whose keys
match no field of the struct: no field has that name, neither exactly nor
case-insensitively, the way `encoding/json` matches keys.  If `json.Unmarshal`
of `p` into a zero `Manifest` returns no error, then so does `json.Unmarshal` of
`p'`, with the same `epoch`, `snapshot_date`, `latest` and `signature_ext`. -/
theorem lenient_decode (lib : GoLib) (p p' : String) (v v' : JSON)
    (hp : parseJSON p = some v) (hp' : parseJSON p' = some v')
    (hadd : AddsUnknownManifest lib v v')
    (hok : (unmarshal lib p Manifest.zero).2 = none) :
    (unmarshal lib p' Manifest.zero).2 = none ∧
    (unmarshal lib p' Manifest.zero).1.Catalog.Epoch =
      (unmarshal lib p Manifest.zero).1.Catalog.Epoch ∧
    (unmarshal lib p' Manifest.zero).1.Catalog.SnapshotDate =
      (unmarshal lib p Manifest.zero).1.Catalog.SnapshotDate ∧
    (unmarshal lib p' Manifest.zero).1.Catalog.Latest =
      (unmarshal lib p Manifest.zero).1.Catalog.Latest ∧
    (unmarshal lib p' Manifest.zero).1.Catalog.SignatureExt =
      (unmarshal lib p Manifest.zero).1.Catalog.SignatureExt := by
  rw [unmarshal_addsUnknown lib p p' v v' hp hp' hadd]
  exact ⟨hok, rfl, rfl, rfl, rfl⟩

/-- Witness of C8, as amended: the manifest of the scenario, and the same
manifest with the unknown fields `build` (top level) and `mirror` (inside
`catalog`) added. -/
theorem lenient_decode_witness :
    (unmarshal lib0 manifestExtra Manifest.zero).2 = none ∧
    (unmarshal lib0 manifestExtra Manifest.zero).1.Catalog.Epoch =
      (unmarshal lib0 manifestGood Manifest.zero).1.Catalog.Epoch ∧
    (unmarshal lib0 manifestExtra Manifest.zero).1.Catalog.SnapshotDate =
      (unmarshal lib0 manifestGood Manifest.zero).1.Catalog.SnapshotDate ∧
    (unmarshal lib0 manifestExtra Manifest.zero).1.Catalog.Latest =
      (unmarshal lib0 manifestGood Manifest.zero).1.Catalog.Latest ∧
    (unmarshal lib0 manifestExtra Manifest.zero).1.Catalog.SignatureExt =
      (unmarshal lib0 manifestGood Manifest.zero).1.Catalog.SignatureExt :=
  lenient_decode lib0 manifestGood manifestExtra
    (.obj [("catalog", .obj [("epoch", .num "7"), ("snapshot_date", .str "2024-01-01"),
      ("latest", .str "https://example/db.tar.zst"), ("signature_ext", .str ".minisig"),
      ("min_client", .str "1.0")])])
    (.obj [("build", .arr [.num "1", .num "2"]),
      ("catalog", .obj [("epoch", .num "7"), ("snapshot_date", .str "2024-01-01"),
        ("mirror", .obj [("eu", .null)]),
        ("latest", .str "https://example/db.tar.zst"), ("signature_ext", .str ".minisig"),
        ("min_client", .str "1.0")])])
    rfl rfl
    ⟨_, _, rfl, rfl,
      .add _ _ _ _ (by decide)
        (.keep _ _ _ _ _
          (Or.inr ⟨_, _, rfl, rfl,
            .keep _ _ _ _ _ rfl (.keep _ _ _ _ _ rfl (.add _ _ _ _ (by decide)
              (.keep _ _ _ _ _ rfl (.keep _ _ _ _ _ rfl (.keep _ _ _ _ _ rfl .nil)))))⟩)
          .nil)⟩
    (by decide)

/-! ## Runs in which the code departs from the specification -/

/-- C2, the code in every run and at two failing inputs.  In every run the
error of `os.MkdirAll` is dropped: whatever it is, the next event is the request
for the manifest; and the error of `json.Unmarshal` is dropped: whatever it is,
the run goes on with the first download.  (a) The published manifest has a
string as `epoch`: `json.Unmarshal` returns an error (event 3), the run goes on
(event 4), reaches the activation (event 30) and exits 0.  (b) The directory of
the local store cannot be made: `os.MkdirAll` returns an error (event 0) and the
run goes on with the request for the manifest (event 1). -/
theorem decode_and_mkdir_errors_dropped :
    (∀ (σ : Type) (lib : GoLib) (env : Env) (w : World σ) (s : σ),
      (∃ err resp gerr,
        (main lib env w s).trace[0]? = some (.mkdirAll (dbDir lib env) 0o755 err) ∧
        (main lib env w s).trace[1]? =
          some (.httpGet .getManifest (manifestURL env) resp gerr)) ∧
      (∀ data m uerr, (main lib env w s).trace[3]? = some (.unmarshal data m uerr) →
        (main lib env w s).trace[4]? =
          some (.stdout ("📥 Downloading " ++ manifestURL env ++ " -> " ++
            lib.join (dbDir lib env) "manifest.json" ++ "\n")))) ∧
    ((main lib0 env0 (simWorld webBadEpoch none) Sim.init).trace[3]? =
        some (.unmarshal manifestBadEpoch
          ⟨⟨0, "2024-01-01", "https://example/db.tar.zst", ".minisig", "1.0"⟩⟩
          (some .mismatch)) ∧
      (main lib0 env0 (simWorld webBadEpoch none) Sim.init).trace[4]? =
        some (.stdout ("📥 Downloading https://cdn.example/manifest.json -> " ++
          "/home/u/.quietpatch/db/manifest.json\n")) ∧
      (main lib0 env0 (simWorld webBadEpoch none) Sim.init).trace[30]? =
        some (.run .activate
          ["quietpatch", "db", "apply", "/home/u/.quietpatch/db/qp_db-latest.tar.zst",
            "/home/u/.quietpatch/db/qp_db-latest.tar.zst.minisig"]
          (some ["HOME=/home/u", "QP_OFFLINE=1"]) none) ∧
      (main lib0 env0 (simWorld webBadEpoch none) Sim.init).exitCode = 0) ∧
    ((main lib0 env0 (simWorld webGood (some "mkdir /home/u/.quietpatch: permission denied"))
          Sim.init).trace[0]? =
        some (.mkdirAll "/home/u/.quietpatch/db" 493
          (some "mkdir /home/u/.quietpatch: permission denied")) ∧
      (main lib0 env0 (simWorld webGood (some "mkdir /home/u/.quietpatch: permission denied"))
          Sim.init).trace[1]? =
        some (.httpGet .getManifest "https://cdn.example/manifest.json" ⟨200, 0⟩ none)) :=
  ⟨fun _ lib env w s => main_errorsDropped lib env w s, by decide, by decide⟩

/-- C3, the code in every run without error and at the failing input.  In every
run in which no fetch action and no child process returns an error, the bytes
`body` decoded into `Manifest` (event 3) are read from the response `r0` to the
request of main.go:57 (events 1 and 2); the bytes `d1` stored as `manifest.json`
(event 7), the file given to the verifier (event 16), are copied from the
response `r1` to another request (event 5); and the artifact is requested from
the `latest` of the decoded `body` (event 18).  At the failing input the web
answers the first request with a forged manifest and the second with the signed
one: the verifier accepts, the artifact and its signature are requested from the
URL named by the forged manifest, and the run exits 0. -/
theorem decoded_bytes_not_the_verified_bytes :
    (∀ (σ : Type) (lib : GoLib) (env : Env) (w : World σ) (s : σ),
        (∀ e ∈ (main lib env w s).trace, e.fetchError = none ∧ e.runError = none) →
        ∃ r0 r1 r3 body d1,
          (main lib env w s).trace[1]? =
            some (.httpGet .getManifest (manifestURL env) r0 none) ∧
          (main lib env w s).trace[2]? = some (.readAll .getManifest r0.body body none) ∧
          (main lib env w s).trace[3]? =
            some (.unmarshal body (unmarshal lib body Manifest.zero).1
              (unmarshal lib body Manifest.zero).2) ∧
          (main lib env w s).trace[5]? =
            some (.httpGet .dlManifest (manifestURL env) r1 none) ∧
          (main lib env w s).trace[7]? =
            some (.copy .dlManifest (lib.join (dbDir lib env) "manifest.json") r1.body d1
              none) ∧
          (main lib env w s).trace[16]? =
            some (.run .verifyManifest
              ["minisign", "-Vm", lib.join (dbDir lib env) "manifest.json", "-P",
                env.getenv "QP_MINISIGN_PUBKEY"] none none) ∧
          (main lib env w s).trace[18]? =
            some (.httpGet .dlArtifact (unmarshal lib body Manifest.zero).1.Catalog.Latest
              r3 none)) ∧
      (main lib0 env0 (simWorld webForged none) Sim.init).trace[3]? =
        some (.unmarshal manifestForged
          ⟨⟨9, "2024-03-01", "https://evil.example/db.tar.zst", ".minisig", "1.0"⟩⟩ none) ∧
      (main lib0 env0 (simWorld webForged none) Sim.init).trace[7]? =
        some (.copy .dlManifest "/home/u/.quietpatch/db/manifest.json" 1 manifestGood none) ∧
      manifestForged ≠ manifestGood ∧
      (main lib0 env0 (simWorld webForged none) Sim.init).trace[16]? =
        some (.run .verifyManifest
          ["minisign", "-Vm", "/home/u/.quietpatch/db/manifest.json", "-P", key0] none none) ∧
      (main lib0 env0 (simWorld webForged none) Sim.init).trace[18]? =
        some (.httpGet .dlArtifact "https://evil.example/db.tar.zst" ⟨200, 3⟩ none) ∧
      (main lib0 env0 (simWorld webForged none) Sim.init).trace[24]? =
        some (.httpGet .dlArtifactSig "https://evil.example/db.tar.zst.minisig"
          ⟨200, 4⟩ none) ∧
      (main lib0 env0 (simWorld webForged none) Sim.init).exitCode = 0 := by
  refine ⟨?_, by decide⟩
  intro σ lib env w s h
  obtain ⟨-, mkErr, r0, r1, r2, r3, r4, body, d1, d2, d3, d4, ht⟩ :=
    main_succeedsAsTraced lib env w s (all_succeeded _ h)
  exact ⟨r0, r1, r3, body, d1, by rw [ht]; rfl, by rw [ht]; rfl, by rw [ht]; rfl,
    by rw [ht]; rfl, by rw [ht]; rfl, by rw [ht]; rfl, by rw [ht]; rfl⟩

/-- C4, the code in every run without error and at the failing input.  In every
run in which no fetch action and no child process returns an error, the exit
status is 0 and the artifact is requested, from the `latest` that
`json.Unmarshal` left in `m`, whether or not `json.Unmarshal` returned an error.
At the failing input the manifest has a string as `epoch`, so it does not decode
as the expected structure: `json.Unmarshal` returns an error; the manifest fetch
and the manifest verification succeed (events 1 and 16), the artifact is fetched
all the same (event 18), and the run exits 0. -/
theorem malformed_manifest_not_rejected :
    (∀ (σ : Type) (lib : GoLib) (env : Env) (w : World σ) (s : σ),
        (∀ e ∈ (main lib env w s).trace, e.fetchError = none ∧ e.runError = none) →
        (main lib env w s).exitCode = 0 ∧
        ∃ body resp,
          Event.unmarshal body (unmarshal lib body Manifest.zero).1
            (unmarshal lib body Manifest.zero).2 ∈ (main lib env w s).trace ∧
          Event.httpGet .dlArtifact (unmarshal lib body Manifest.zero).1.Catalog.Latest
            resp none ∈ (main lib env w s).trace) ∧
      (unmarshal lib0 manifestBadEpoch Manifest.zero).2 = some .mismatch ∧
      (main lib0 env0 (simWorld webBadEpoch none) Sim.init).trace[1]? =
        some (.httpGet .getManifest "https://cdn.example/manifest.json" ⟨200, 0⟩ none) ∧
      (main lib0 env0 (simWorld webBadEpoch none) Sim.init).trace[16]? =
        some (.run .verifyManifest
          ["minisign", "-Vm", "/home/u/.quietpatch/db/manifest.json", "-P", key0] none none) ∧
      (main lib0 env0 (simWorld webBadEpoch none) Sim.init).trace[18]? =
        some (.httpGet .dlArtifact "https://example/db.tar.zst" ⟨200, 3⟩ none) ∧
      (main lib0 env0 (simWorld webBadEpoch none) Sim.init).exitCode = 0 := by
  refine ⟨?_, by decide⟩
  intro σ lib env w s h
  obtain ⟨hc, mkErr, r0, r1, r2, r3, r4, body, d1, d2, d3, d4, ht⟩ :=
    main_succeedsAsTraced lib env w s (all_succeeded _ h)
  refine ⟨hc, body, r3, ?_, ?_⟩ <;> rw [ht] <;> simp [successTrace, downloadTrace]

/-- C5, the code in every run without error and at the failing input.  A run of
`main` in which no fetch action and no child process returns an error has
exactly the trace `successTrace`: the manifest URL is requested twice (main.go:57
and, inside `download`, main.go:71), and the manifest is decoded from the body
of the first response before the verifier runs.  The failing input is the
scenario of the specification: there the requests are the five listed, the
manifest is decoded at event 3 and verified at event 16. -/
theorem manifest_fetched_twice_decoded_first :
    (∀ (σ : Type) (lib : GoLib) (env : Env) (w : World σ) (s : σ),
        (∀ e ∈ (main lib env w s).trace, e.fetchError = none ∧ e.runError = none) →
        ∃ mkErr r0 r1 r2 r3 r4 body d1 d2 d3 d4,
          (main lib env w s).trace =
            successTrace lib env mkErr r0 r1 r2 r3 r4 body d1 d2 d3 d4 ∧
          getsOf (main lib env w s).trace =
            [(.getManifest, manifestURL env), (.dlManifest, manifestURL env),
             (.dlManifestSig, manifestURL env ++ ".minisig"),
             (.dlArtifact, (unmarshal lib body Manifest.zero).1.Catalog.Latest),
             (.dlArtifactSig, (unmarshal lib body Manifest.zero).1.Catalog.Latest ++
               (unmarshal lib body Manifest.zero).1.Catalog.SignatureExt)]) ∧
      (∀ e ∈ (main lib0 env0 (simWorld webGood none) Sim.init).trace,
        e.fetchError = none ∧ e.runError = none) ∧
      getsOf (main lib0 env0 (simWorld webGood none) Sim.init).trace =
        [(.getManifest, "https://cdn.example/manifest.json"),
         (.dlManifest, "https://cdn.example/manifest.json"),
         (.dlManifestSig, "https://cdn.example/manifest.json.minisig"),
         (.dlArtifact, "https://example/db.tar.zst"),
         (.dlArtifactSig, "https://example/db.tar.zst.minisig")] ∧
      (main lib0 env0 (simWorld webGood none) Sim.init).trace[2]? =
        some (.readAll .getManifest 0 manifestGood none) ∧
      (main lib0 env0 (simWorld webGood none) Sim.init).trace[3]? =
        some (.unmarshal manifestGood
          ⟨⟨7, "2024-01-01", "https://example/db.tar.zst", ".minisig", "1.0"⟩⟩ none) ∧
      (main lib0 env0 (simWorld webGood none) Sim.init).trace[16]? =
        some (.run .verifyManifest
          ["minisign", "-Vm", "/home/u/.quietpatch/db/manifest.json", "-P", key0] none none) := by
  refine ⟨?_, by decide⟩
  intro σ lib env w s h
  obtain ⟨-, mkErr, r0, r1, r2, r3, r4, body, d1, d2, d3, d4, ht⟩ :=
    main_succeedsAsTraced lib env w s (all_succeeded _ h)
  exact ⟨mkErr, r0, r1, r2, r3, r4, body, d1, d2, d3, d4, ht, by rw [ht]; rfl⟩

/-- C10, the code for every signature extension and at the failing input.  In
every run the artifact verifier is started as `minisign -Vm <file> -P <key>`
(main.go:89): the path at which the artifact signature was stored is not among
its arguments, whatever `signature_ext` is.  At the failing input the manifest has
`signature_ext = ".sig"` and the release is signed correctly: the signature of
the artifact is stored at `qp_db-latest.tar.zst.sig` (event 26), the verifier
(event 29) looks for `qp_db-latest.tar.zst.minisig`, finds none, and the run
exits 1. -/
theorem verifier_not_given_signature_path :
    (∀ (σ : Type) (lib : GoLib) (env : Env) (w : World σ) (s : σ) (argv : List String)
        (cenv : Option (List String)) (err : GoError),
        Event.run .verifyArtifact argv cenv err ∈ (main lib env w s).trace →
        argv = ["minisign", "-Vm", lib.join (dbDir lib env) "qp_db-latest.tar.zst", "-P",
          env.getenv "QP_MINISIGN_PUBKEY"]) ∧
      (main lib0 env0 (simWorld webSig none) Sim.init).trace[26]? =
        some (.copy .dlArtifactSig "/home/u/.quietpatch/db/qp_db-latest.tar.zst.sig" 4
          (toySign key0 "CATALOG-DATA") none) ∧
      (main lib0 env0 (simWorld webSig none) Sim.init).trace[29]? =
        some (.run .verifyArtifact
          ["minisign", "-Vm", "/home/u/.quietpatch/db/qp_db-latest.tar.zst", "-P", key0]
          none (some "exit status 1")) ∧
      "/home/u/.quietpatch/db/qp_db-latest.tar.zst.sig" ∉
        ["minisign", "-Vm", "/home/u/.quietpatch/db/qp_db-latest.tar.zst", "-P", key0] ∧
      (main lib0 env0 (simWorld webSig none) Sim.init).exitCode = 1 :=
  ⟨fun _ lib env w s argv cenv err h =>
      ((main_runsAsComputed lib env w s _ argv cenv err h).2.1 rfl).1,
    by decide⟩

end QuietPatch
